import Mathlib

/-!
Verification development for the faceit-ext-chatbot-service repository.

The JavaScript modules are shallowly embedded as pure Lean functions over
explicit state records.  JS `Map`/`Set` objects are modelled as association
lists (`Dict`) / membership lists with the same get/set/delete semantics;
`null`/`undefined` fields are modelled with `Option`; timestamps are natural
numbers of milliseconds.
-/

namespace Chatbot

/-- Association-list model of a JS `Map`.  Keys are compared with
decidable equality; `set` replaces an existing binding in place. -/
abbrev Dict (α β : Type) := List (α × β)

namespace Dict

variable {α β : Type} [DecidableEq α]

def empty : Dict α β := []

def get? (m : Dict α β) (k : α) : Option β :=
  match m with
  | [] => none
  | (k₀, v₀) :: rest => if k₀ = k then some v₀ else get? rest k

def hasKey (m : Dict α β) (k : α) : Bool :=
  (get? m k).isSome

def set (m : Dict α β) (k : α) (v : β) : Dict α β :=
  match m with
  | [] => [(k, v)]
  | (k₀, v₀) :: rest => if k₀ = k then (k, v) :: rest else (k₀, v₀) :: set rest k v

def erase (m : Dict α β) (k : α) : Dict α β :=
  match m with
  | [] => []
  | (k₀, v₀) :: rest => if k₀ = k then erase rest k else (k₀, v₀) :: erase rest k

def values (m : Dict α β) : List β :=
  m.map Prod.snd

end Dict

/-! ### `lib/utils/validation.js` -/

/-- `isValidString(value, minLength = 1, maxLength = 1000)` for string values. -/
def isValidString (value : String) (minLength : Nat := 1) (maxLength : Nat := 1000) : Bool :=
  minLength ≤ value.length && value.length ≤ maxLength

/-- `isValidArray(value, minLength = 0, maxLength = 1000)` for array values. -/
def isValidArray {α : Type} (value : List α) (minLength : Nat := 0) (maxLength : Nat := 1000) :
    Bool :=
  minLength ≤ value.length && value.length ≤ maxLength

/-- Characters accepted by the safe-word regex `^[\p{L}\p{N}\s\-_'.!?]+$`.
The embedding covers the ASCII fragment of the Unicode letter/number
classes (`Char.isAlpha`/`Char.isDigit`) plus whitespace and the listed
punctuation; every concrete input analysed below is ASCII. -/
def isSafeWordChar (c : Char) : Bool :=
  c.isAlpha || c.isDigit || c = ' ' || c = '\t' || c = '\n' || c = '-' || c = '_' ||
    c = Char.ofNat 39 || c = '.' || c = '!' || c = '?'

/-- `isSafeWordString(word)`: valid string of length 1..100 whose characters
all belong to the safe-word character class. -/
def isSafeWordString (word : String) : Bool :=
  isValidString word 1 100 && word.data.all isSafeWordChar

/-- `sanitizeStringArray(words, validator)`: drop entries rejected by the
validator (the array-shape guard mirrors the JS function). -/
def sanitizeStringArray (words : List String) (validator : String → Bool) : List String :=
  if isValidArray words then words.filter validator else []

/-- JS `String.prototype.toLowerCase()`, character-wise (ASCII-faithful;
all concrete inputs analysed below are ASCII). -/
def strToLower (s : String) : String := ⟨s.data.map Char.toLower⟩

/-- Boolean list membership via decidable equality (JS `Set.has` /
`Array.includes`). -/
def listHas {α : Type} [DecidableEq α] (l : List α) (x : α) : Bool :=
  l.any (· = x)

/-! ### `smart-word-filter.js` (SmartWordFilter) -/

/-- JS `\w` character class (ASCII word character), the class underlying
the `\b` boundaries of the compiled exact-match pattern. -/
def isRegexWordChar (c : Char) : Bool :=
  c.isAlpha || c.isDigit || c = '_'

/-- Whether position `i` of the character list is a `\b` word boundary:
exactly one of the two surrounding positions holds a word character
(positions outside the string count as non-word). -/
def boundaryAt (cs : List Char) (i : Nat) : Bool :=
  let beforeIsWord := if i = 0 then false else
    match cs.get? (i - 1) with
    | none => false
    | some c => isRegexWordChar c
  let afterIsWord :=
    match cs.get? i with
    | none => false
    | some c => isRegexWordChar c
  beforeIsWord != afterIsWord

/-- The literal characters `w` occur in `m` starting at index `i`. -/
def matchLiteralAt (m : List Char) (i : Nat) (w : List Char) : Bool :=
  (m.drop i).take w.length = w

/-- `SmartWordFilter.hasWordBoundaryMatch(message, bannedWord)`: the compiled
pattern is `\b` + the regex-escaped (hence literal) banned word + `\b`,
tested against the already-lowercased message. -/
def hasWordBoundaryMatch (message bannedWord : String) : Bool :=
  let m := message.data
  let w := bannedWord.data
  (List.range (m.length + 1)).any fun i =>
    matchLiteralAt m i w && boundaryAt m i && boundaryAt m (i + w.length)

/-- `SmartWordFilter.isWordPresent`: exact word-boundary match first, then
the compiled evasion patterns.  The evasion-pattern component is kept as an
explicit parameter of the embedding (its regex internals do not decide any
claim; every theorem below holds for an arbitrary evasion matcher, and
every concrete run instantiates it). -/
def isWordPresent (evasion : String → String → Bool) (lowerMessage bannedWord : String) : Bool :=
  hasWordBoundaryMatch lowerMessage bannedWord || evasion lowerMessage bannedWord

/-- `SmartWordFilter.checkBannedWords(message, bannedWords)`:
validate inputs, lowercase the message, and scan the word list. -/
def filterCheckBannedWords (evasion : String → String → Bool)
    (message : String) (bannedWords : List String) : Bool :=
  if !isValidString message then false
  else if !isValidArray bannedWords 1 then false
  else bannedWords.any fun bannedWord =>
    isValidString bannedWord &&
      isWordPresent evasion (strToLower message) (strToLower bannedWord)

/-- `SmartWordFilter.combineWordLists(presetWords, customWords)`: lowercase
both lists and deduplicate preserving first-insertion order (JS `Set`). -/
def combineWordLists (presetWords customWords : List String) : List String :=
  let addAll : List String → List String → List String := fun acc ws =>
    ws.foldl (fun acc w =>
      if w.length > 0 && !listHas acc (strToLower w) then acc ++ [strToLower w] else acc) acc
  addAll (addAll [] presetWords) customWords

/-! ### `banned-words-manager.js` (BannedWordsManager) -/

/-- A row of `profanity_filter_config` as served by the data-plane
(`GET /profanity-filter-config/:entityId`), after JSON parsing. -/
structure ProfanityConfig where
  is_active : Bool
  banned_words_preset_id : Option Nat
  custom_words : List String
  manager_guids : List String
  discord_webhook_url : Option String
  message_reply : Option String
  mute_duration_seconds : Option Nat
deriving DecidableEq, Repr

/-- The per-entity record stored in `BannedWordsManager.entityConfigs`. -/
structure EntityWordsConfig where
  presetId : Option Nat
  customWords : List String
  managerGuids : List String
  enabled : Bool
deriving DecidableEq, Repr

/-- The mutable state of a `BannedWordsManager` instance:
`presetWords` (presetId → word array), `entityConfigs`, `usedPresetIds`. -/
structure BWMState where
  presetWords : Dict Nat (List String)
  entityConfigs : Dict String EntityWordsConfig
  usedPresetIds : List Nat
deriving DecidableEq, Repr

def BWMState.initial : BWMState :=
  { presetWords := [], entityConfigs := [], usedPresetIds := [] }

/-- `BannedWordsManager.containsDangerousRegexPatterns(word)`: the nine
dangerous-pattern regexes are substring tests, except the unbounded
quantifier `\{\d+,\}` which needs one or more digits between the brace
and the comma. -/
def containsSubstring (s sub : String) : Bool :=
  (List.range (s.length + 1)).any fun i =>
    matchLiteralAt s.data i sub.data

/-- Recognizes an occurrence of `\{\d+,\}` starting at the opening brace:
`Char.ofNat 123` / `Char.ofNat 125` are the brace characters. -/
def unboundedQuantAt : List Char → Bool
  | c :: rest =>
    if c = Char.ofNat 123 then digitsThenClose rest false else false
  | [] => false
where
  digitsThenClose : List Char → Bool → Bool
  | c :: rest, seen =>
    if c.isDigit then digitsThenClose rest true
    else if c = ',' then
      seen && (match rest with
        | c₁ :: _ => c₁ = Char.ofNat 125
        | [] => false)
    else false
  | [], _ => false

def containsUnboundedQuant (word : String) : Bool :=
  (List.range word.length).any fun i => unboundedQuantAt (word.data.drop i)

def containsDangerousRegexPatterns (word : String) : Bool :=
  containsSubstring word "(?=" || containsSubstring word "(?!" ||
  containsSubstring word "(?<=" || containsSubstring word "(?<!" ||
  containsUnboundedQuant word ||
  containsSubstring word "++" || containsSubstring word "**" ||
  containsSubstring word "(.*)" || containsSubstring word "(.+)"

/-- `BannedWordsManager.validateAndSanitizeWords(words)`: keep only words
that pass `isSafeWordString` and are free of dangerous regex patterns. -/
def validateAndSanitizeWords (words : List String) : List String :=
  if !isValidArray words then []
  else sanitizeStringArray words fun word =>
    isSafeWordString word && !containsDangerousRegexPatterns word

/-- `BannedWordsManager.initializePreset(presetId)`.  The data-plane fetch
is a parameter `fetch`; `none` models a 404 / fetch failure (the JS skips
silently in both cases).  Fetched word lists ARE passed through
`validateAndSanitizeWords` here. -/
def initializePreset (fetch : Nat → Option (List String)) (s : BWMState) (presetId : Nat) :
    BWMState :=
  if Dict.hasKey s.presetWords presetId then s
  else
    match fetch presetId with
    | none => s
    | some rawWords =>
        { s with presetWords :=
            Dict.set s.presetWords presetId (validateAndSanitizeWords rawWords) }

/-- `BannedWordsManager.configureEntity(entityId, profanityConfig)`. -/
def configureEntity (fetch : Nat → Option (List String)) (s : BWMState)
    (entityId : String) (profanityConfig : Option ProfanityConfig) : BWMState :=
  match profanityConfig with
  | none => { s with entityConfigs := Dict.erase s.entityConfigs entityId }
  | some cfg =>
    if !cfg.is_active then
      { s with entityConfigs := Dict.erase s.entityConfigs entityId }
    else
      let customWords := validateAndSanitizeWords cfg.custom_words
      let managerGuids := cfg.manager_guids
      let s₁ :=
        match cfg.banned_words_preset_id with
        | none => s
        | some presetId =>
          let s₁ := initializePreset fetch s presetId
          { s₁ with usedPresetIds :=
              if listHas s₁.usedPresetIds presetId then s₁.usedPresetIds
              else s₁.usedPresetIds ++ [presetId] }
      let config : EntityWordsConfig :=
        { presetId := cfg.banned_words_preset_id
          customWords := customWords
          managerGuids := managerGuids
          enabled := true }
      { s₁ with entityConfigs := Dict.set s₁.entityConfigs entityId config }

/-- `BannedWordsManager.isAuthorExempt(entityId, messageAuthorGuid)`:
the bot itself and the entity's managers are exempt. -/
def isAuthorExempt (s : BWMState) (botGuid : Option String)
    (entityId messageAuthorGuid : String) : Bool :=
  if entityId = "" || messageAuthorGuid = "" then false
  else
    match Dict.get? s.entityConfigs entityId with
    | none => false
    | some config =>
      (match botGuid with
       | some g => messageAuthorGuid = g
       | none => false) ||
      listHas config.managerGuids messageAuthorGuid

/-- `BannedWordsManager.checkBannedWords(message, entityId, messageAuthorGuid)`:
input validation, entity-config lookup, manager/bot exemption, then the
combined preset + custom list is checked by the smart word filter. -/
def managerCheckBannedWords (evasion : String → String → Bool) (s : BWMState)
    (botGuid : Option String) (message entityId messageAuthorGuid : String) : Bool :=
  if message = "" || entityId = "" || messageAuthorGuid = "" then false
  else
    match Dict.get? s.entityConfigs entityId with
    | none => false
    | some config =>
      if !config.enabled then false
      else if isAuthorExempt s botGuid entityId messageAuthorGuid then false
      else
        let presetWords :=
          match config.presetId with
          | some presetId => (Dict.get? s.presetWords presetId).getD []
          | none => []
        let allBannedWords := combineWordLists presetWords config.customWords
        filterCheckBannedWords evasion message allBannedWords

/-- `BannedWordsManager.cleanupEntity(entityId)`: drop the entity's config
and unload its preset when no remaining entity references it. -/
def cleanupEntity (s : BWMState) (entityId : String) : BWMState :=
  match Dict.get? s.entityConfigs entityId with
  | none => s
  | some config =>
    let configs := Dict.erase s.entityConfigs entityId
    match config.presetId with
    | none => { s with entityConfigs := configs }
    | some presetId =>
      let stillUsed := (Dict.values configs).any fun entityConfig =>
        entityConfig.presetId = some presetId
      if stillUsed then { s with entityConfigs := configs }
      else
        { entityConfigs := configs
          presetWords := Dict.erase s.presetWords presetId
          usedPresetIds := s.usedPresetIds.filter (· ≠ presetId) }

/-- `BannedWordsManager.refreshPreset(presetId)`.  A loaded preset is
overwritten with the freshly fetched word list; a vanished preset
(`fetch = none`, i.e. 404) is dropped from the cache.  NOTE (faithful to
the source): unlike `initializePreset`, the fetched words are stored
WITHOUT `validateAndSanitizeWords`. -/
def refreshPreset (fetch : Nat → Option (List String)) (s : BWMState) (presetId : Nat) :
    BWMState :=
  if !Dict.hasKey s.presetWords presetId then s
  else
    match fetch presetId with
    | some rawWords =>
        { s with presetWords := Dict.set s.presetWords presetId rawWords }
    | none =>
        { s with
          presetWords := Dict.erase s.presetWords presetId
          usedPresetIds := s.usedPresetIds.filter (· ≠ presetId) }

/-! ### `config/index.js` constants -/

/-- `constants.moderation.bannedWordMuteDuration` = 24 * 60 * 60 seconds. -/
def bannedWordMuteDuration : Nat := 24 * 60 * 60

/-- `constants.moderation.readOnlyMuteDuration` = 10 seconds. -/
def readOnlyMuteDuration : Nat := 10

/-- `constants.auth.tokenRefreshIntervalMs` default: 30 minutes. -/
def tokenRefreshIntervalMs : Nat := 30 * 60 * 1000

/-- `constants.auth.forceRefreshMinIntervalMs` default: 60 seconds. -/
def forceRefreshMinIntervalMs : Nat := 60 * 1000

/-! ### `moderation.js` (Moderation): stages A and B of the pipeline -/

/-- One externally visible moderation action of the worker for a single
message: the Discord-webhook notification call, the queued in-chat reply
stanza, the admin-API delete request, and the admin-API mute request. -/
inductive ModAction where
  | webhookCall (entityId : String)
  | replyStanza (text : String)
  | deleteRequest (messageId : String)
  | muteRequest (userGuid : String) (durationSeconds : Nat)
deriving DecidableEq, Repr

/-- `Moderation.getMessageReply(entityId)`: `config?.message_reply || null`
(an empty string is falsy in JS, so it yields no reply). -/
def getMessageReply (profanityFilterConfigs : Dict String ProfanityConfig)
    (entityId : String) : Option String :=
  match Dict.get? profanityFilterConfigs entityId with
  | none => none
  | some config =>
    match config.message_reply with
    | none => none
    | some reply => if reply = "" then none else some reply

/-- `Moderation.muteUser(userGuid, roomId, durationSeconds)` as the list of
mute requests it issues: muting is skipped when the duration is zero
(JS: `!durationSeconds || durationSeconds <= 0`). -/
def muteUserActions (userGuid : String) (durationSeconds : Nat) : List ModAction :=
  if durationSeconds = 0 then [] else [ModAction.muteRequest userGuid durationSeconds]

/-- `Moderation.checkBannedWords` (stage A).  On a hit: Discord webhook
notification call, optional reply stanza, delete request, then a mute whose
duration is `profanityConfig?.mute_duration_seconds ?? bannedWordMuteDuration`
(the JS `??` falls back to the 24 h default when the field is null/absent).
Returns (acted?, issued actions). -/
def moderationCheckBannedWords (evasion : String → String → Bool) (bwm : BWMState)
    (profanityFilterConfigs : Dict String ProfanityConfig) (botGuid : Option String)
    (messageContent roomId messageAuthorGuid messageId : String) :
    Bool × List ModAction :=
  if managerCheckBannedWords evasion bwm botGuid messageContent roomId messageAuthorGuid then
    let replyActions :=
      match getMessageReply profanityFilterConfigs roomId with
      | some reply => [ModAction.replyStanza reply]
      | none => []
    let muteDuration :=
      match Dict.get? profanityFilterConfigs roomId with
      | some profanityConfig =>
          (profanityConfig.mute_duration_seconds).getD bannedWordMuteDuration
      | none => bannedWordMuteDuration
    (true,
      ModAction.webhookCall roomId :: replyActions ++
        ModAction.deleteRequest messageId :: muteUserActions messageAuthorGuid muteDuration)
  else (false, [])

/-- The fields of an entity record used by the pipeline
(`GET /entities/:id/data` shape). -/
structure TimerEntry where
  message : String
  upload_id : Option String
deriving DecidableEq, Repr

structure CommandEntry where
  response : String
  upload_id : Option String
deriving DecidableEq, Repr

structure EntityConfig where
  guid : String
  type : String
  parent_guid : Option String
  commands : Dict String CommandEntry
  timers : List TimerEntry
  timer_counter_max : Nat
  read_only : Bool
  welcome_message : Option String
deriving DecidableEq, Repr

/-- `Moderation.enforceReadOnlyMode` (stage B): when `roomConfig.read_only`
is set, delete the message and mute the author for the fixed 10 s default.
The author is NOT consulted: the source checks only `roomConfig.read_only`. -/
def enforceReadOnlyMode (roomConfig : EntityConfig)
    (roomId messageAuthorGuid messageId : String) : Bool × List ModAction :=
  if roomConfig.read_only then
    (true,
      ModAction.deleteRequest messageId ::
        muteUserActions messageAuthorGuid readOnlyMuteDuration)
  else (false, [])

/-- `Moderation.processModeration`: stage A, then stage B, early return on
the first stage that acted. -/
def processModeration (evasion : String → String → Bool) (bwm : BWMState)
    (profanityFilterConfigs : Dict String ProfanityConfig) (botGuid : Option String)
    (roomConfig : EntityConfig)
    (messageContent roomId messageAuthorGuid messageId : String) :
    Bool × List ModAction :=
  let stageA := moderationCheckBannedWords evasion bwm profanityFilterConfigs botGuid
    messageContent roomId messageAuthorGuid messageId
  if stageA.1 then stageA
  else enforceReadOnlyMode roomConfig roomId messageAuthorGuid messageId

/-! ### `message-processor.js` (MessageProcessor.validateMessage) -/

/-- The parts of an inbound groupchat stanza that `validateMessage` reads. -/
structure InboundGroupchat where
  body : Option String
  delayTagged : Bool
  roomJid : String
  authorFullJid : Option String
  stanzaId : String
deriving DecidableEq, Repr

structure MessageData where
  messageContent : String
  roomJid : String
  messageAuthorGuid : String
  messageId : String
deriving DecidableEq, Repr

/-- `MessageProcessor.validateMessage(stanza)`: requires a `<body>`, drops
`urn:xmpp:delay` history replays, extracts the author guid from the JID
resource (`split('@')[0]`), and drops messages with no author or authored
by the bot itself. -/
def validateMessage (botGuid : String) (stanza : InboundGroupchat) : Option MessageData :=
  match stanza.body with
  | none => none
  | some messageContent =>
    if stanza.delayTagged then none
    else
      match stanza.authorFullJid with
      | none => none
      | some authorFullJid =>
        let messageAuthorGuid : String := ⟨authorFullJid.data.takeWhile (· ≠ '@')⟩
        if messageAuthorGuid = "" then none
        else if messageAuthorGuid = botGuid then none
        else some
          { messageContent := messageContent
            roomJid := stanza.roomJid
            messageAuthorGuid := messageAuthorGuid
            messageId := stanza.stanzaId }

/-! ### `state-manager.js` counters and `timed-messages.js` (stage C) -/

/-- The per-room counter state used by the timed-message stage:
`messageCounts` and `autoMessageTurn` (missing entries read as 0). -/
structure CounterState where
  messageCounts : Dict String Nat
  autoMessageTurn : Dict String Nat
deriving DecidableEq, Repr

def CounterState.initial : CounterState := { messageCounts := [], autoMessageTurn := [] }

def getMessageCount (s : CounterState) (roomId : String) : Nat :=
  (Dict.get? s.messageCounts roomId).getD 0

def setMessageCount (s : CounterState) (roomId : String) (count : Nat) : CounterState :=
  { s with messageCounts := Dict.set s.messageCounts roomId count }

def getAutoMessageTurn (s : CounterState) (roomId : String) : Nat :=
  (Dict.get? s.autoMessageTurn roomId).getD 0

/-- `StateManager.incrementAutoMessageTurn(roomId, maxTurn)`:
`newTurn = (current + 1) % maxTurn`, stored and returned. -/
def incrementAutoMessageTurn (s : CounterState) (roomId : String) (maxTurn : Nat) :
    CounterState × Nat :=
  let newTurn := (getAutoMessageTurn s roomId + 1) % maxTurn
  ({ s with autoMessageTurn := Dict.set s.autoMessageTurn roomId newTurn }, newTurn)

/-- `TimedMessages.processTimedMessages(roomId, roomConfig, queueStanza)`:
increment the per-room counter; when it exceeds `timer_counter_max` and the
timers list is non-empty, advance the round-robin cursor BEFORE emission,
queue `timers.at(nextTurn)` and reset the counter.  Returns the new counter
state and the emitted timer entry, if any. -/
def processTimedMessages (s : CounterState) (roomId : String) (roomConfig : EntityConfig) :
    CounterState × Option TimerEntry :=
  let newCount := getMessageCount s roomId + 1
  let s₁ := setMessageCount s roomId newCount
  if roomConfig.timers.length > 0 && newCount > roomConfig.timer_counter_max then
    let (s₂, nextTurn) := incrementAutoMessageTurn s₁ roomId roomConfig.timers.length
    let timerConfig := roomConfig.timers.get? nextTurn
    (setMessageCount s₂ roomId 0, timerConfig)
  else (s₁, none)

/-! ### `commands.js` (stage D) -/

/-- `Commands.processCommands`: a message starting with `!` is looked up
(lowercased, prefix stripped) in the entity's commands map; the matching
command's response is queued.  Returns the triggered command, if any. -/
def processCommands (messageContent : String) (roomConfig : EntityConfig) :
    Option CommandEntry :=
  if messageContent.data.head? = some '!' then
    let command := strToLower ⟨messageContent.data.drop 1⟩
    Dict.get? roomConfig.commands command
  else none

/-! ### `worker/index.js` `handleGroupChatMessage`: the full pipeline -/

/-- The observable outcome of `handleGroupChatMessage` for one message that
passed validation and entity checks. -/
structure PipelineResult where
  moderated : Bool
  modActions : List ModAction
  timerEmit : Option TimerEntry
  commandEmit : Option CommandEntry
  counters : CounterState
deriving DecidableEq, Repr

/-- `handleGroupChatMessage` after validation: run moderation (stages A, B)
with early return, then the timed-message stage, then the command stage.
The command stage is run unconditionally after the timer stage. -/
def handleGroupChatMessage (evasion : String → String → Bool) (bwm : BWMState)
    (profanityFilterConfigs : Dict String ProfanityConfig) (botGuid : Option String)
    (counters : CounterState) (roomConfig : EntityConfig)
    (messageContent roomId messageAuthorGuid messageId : String) : PipelineResult :=
  let moderationResult := processModeration evasion bwm profanityFilterConfigs botGuid
    roomConfig messageContent roomId messageAuthorGuid messageId
  if moderationResult.1 then
    { moderated := true
      modActions := moderationResult.2
      timerEmit := none
      commandEmit := none
      counters := counters }
  else
    let (counters₁, timerEmit) := processTimedMessages counters roomId roomConfig
    let commandEmit := processCommands messageContent roomConfig
    { moderated := false
      modActions := []
      timerEmit := timerEmit
      commandEmit := commandEmit
      counters := counters₁ }

/-! ### `lib/utils/index.js` idManager -/

def isHexDigitCI (c : Char) : Bool :=
  c.isDigit || (97 ≤ c.toNat && c.toNat ≤ 102) || (65 ≤ c.toNat && c.toNat ≤ 70)

/-- The 36-character `8-4-4-4-12` UUID shape tested by
`idManager.normalizeId` (case-insensitive hex). -/
def isUuidShape (cs : List Char) : Bool :=
  cs.length = 36 &&
  (List.range 36).all fun i =>
    match cs.get? i with
    | none => false
    | some c => if i = 8 || i = 13 || i = 18 || i = 23 then c = '-' else isHexDigitCI c

/-- Left-to-right non-overlapping scan for UUID matches (the JS global
regex match): on a match the scan resumes after its 36 characters.  The
fuel argument (initialized to the string length, which bounds the number
of steps) keeps the recursion structural. -/
def uuidScanAux : Nat → List Char → List String
  | 0, _ => []
  | _, [] => []
  | fuel + 1, c :: rest =>
    if isUuidShape ((c :: rest).take 36) then
      String.mk ((c :: rest).take 36) :: uuidScanAux fuel ((c :: rest).drop 36)
    else uuidScanAux fuel rest

def uuidScan (cs : List Char) : List String :=
  uuidScanAux cs.length cs

/-- `idManager.normalizeId(id)` / `idManager.fromJid(jid)`: `none` for a
falsy id; a clean UUID is returned as is; otherwise the LAST UUID occurring
in the string; otherwise the id unchanged. -/
def normalizeId (id : String) : Option String :=
  if id = "" then none
  else if isUuidShape id.data then some id
  else
    match (uuidScan id.data).getLast? with
    | some uuid => some uuid
    | none => some id

/-! ### `worker/index.js` outgoing queue, 404 handling, assignment -/

/-- An outgoing stanza as the queue logic sees it: its `to` attribute plus
an uninterpreted payload tag. -/
structure Stanza where
  toAttr : String
  payload : String
deriving DecidableEq, Repr

/-- JS `Set.add` (no duplicates, insertion order). -/
def setAdd (s : List String) (x : String) : List String :=
  if listHas s x then s else s ++ [x]

/-- JS `Set.delete`. -/
def setDelete (s : List String) (x : String) : List String :=
  s.filter (· ≠ x)

/-- The worker state visible to the queue/404/assignment logic
(`StateManager` fields). -/
structure WorkerState where
  entities : Dict String EntityConfig
  counters : CounterState
  supergroupSubscriptions : Dict String String
  recentlyUnassignedEntities : List String
  nonExistentEntities : List String
  outgoingStanzaQueue : List Stanza
deriving Repr

/-- `cleanupEntityData(entityId, caches, options)` from `lib/utils`:
drop the entity and its counters/subscription, optionally adding it to the
recently-unassigned and non-existent sets. -/
def cleanupEntityData (s : WorkerState) (entityId : String)
    (addToRecentlyUnassigned addToNonExistent : Bool) : WorkerState :=
  { entities := Dict.erase s.entities entityId
    counters :=
      { messageCounts := Dict.erase s.counters.messageCounts entityId
        autoMessageTurn := Dict.erase s.counters.autoMessageTurn entityId }
    supergroupSubscriptions := Dict.erase s.supergroupSubscriptions entityId
    recentlyUnassignedEntities :=
      if addToRecentlyUnassigned then setAdd s.recentlyUnassignedEntities entityId
      else s.recentlyUnassignedEntities
    nonExistentEntities :=
      if addToNonExistent then setAdd s.nonExistentEntities entityId
      else s.nonExistentEntities
    outgoingStanzaQueue := s.outgoingStanzaQueue }

/-- `DebugHandler.handle404Error(stanza)`: an IQ error with code 404 from a
supergroup/muclight JID that resolves to a known entity removes the entity
(adding it to both tracking sets) and posts a status=inactive notification
to the data-plane (returned as the second component). -/
def handle404Error (s : WorkerState) (fromJid : String) : WorkerState × Option String :=
  if fromJid = "" ||
      (!containsSubstring fromJid "@supergroups" && !containsSubstring fromJid "@muclight") then
    (s, none)
  else
    match normalizeId fromJid with
    | none => (s, none)
    | some entityId =>
      if Dict.hasKey s.entities entityId then
        (cleanupEntityData s entityId true true, some entityId)
      else (s, none)

/-- `idManager.toMucLightJidForEntity(entity, xmppConfig)` with the
production domains. -/
def toMucLightJidForEntity (entity : EntityConfig) : String :=
  let entityType := if entity.type = "" then "community" else strToLower entity.type
  if entityType = "community" then
    "club-" ++ entity.guid ++ "-general@muclight.chat.faceit.com"
  else
    match entity.parent_guid with
    | some parentGuid =>
        "club-" ++ parentGuid ++ "-channel-" ++ entity.guid ++ "@muclight.chat.faceit.com"
    | none => "club-" ++ entity.guid ++ "-general@muclight.chat.faceit.com"

/-- `queueStanza(stanza)`: append to the FIFO outgoing queue. -/
def queueStanza (s : WorkerState) (stanza : Stanza) : WorkerState :=
  { s with outgoingStanzaQueue := s.outgoingStanzaQueue ++ [stanza] }

/-- `handleEntityAssignment` state effect: clear the entity from the
recently-unassigned and non-existent sets, store the entity data, and queue
the MUC-Light configuration (join) stanza. -/
def handleEntityAssignment (s : WorkerState) (entityId : String)
    (entityData : Option EntityConfig) : WorkerState :=
  let s₁ :=
    { s with
      recentlyUnassignedEntities := setDelete s.recentlyUnassignedEntities entityId
      nonExistentEntities := setDelete s.nonExistentEntities entityId }
  match entityData with
  | none => s₁
  | some entity =>
    let s₂ := { s₁ with entities := Dict.set s₁.entities entityId entity }
    queueStanza s₂ { toAttr := toMucLightJidForEntity entity, payload := "muclight-config" }

/-- `handleEntityUnassignment` state effect: mark recently unassigned and
drop the entity data (the non-existent set is NOT touched). -/
def handleEntityUnassignment (s : WorkerState) (entityId : String) : WorkerState :=
  let s₁ := { s with
    recentlyUnassignedEntities := setAdd s.recentlyUnassignedEntities entityId }
  cleanupEntityData s₁ entityId true false

/-- `processStanzaQueue()`: pop one stanza per tick; a stanza whose `to`
attribute resolves to an entity in the non-existent set is dropped,
otherwise it is sent (second component). -/
def processStanzaQueue (s : WorkerState) : WorkerState × Option Stanza :=
  match s.outgoingStanzaQueue with
  | [] => (s, none)
  | stanza :: rest =>
    let s₁ := { s with outgoingStanzaQueue := rest }
    if stanza.toAttr ≠ "" then
      match normalizeId stanza.toAttr with
      | some entityId =>
        if listHas s.nonExistentEntities entityId then (s₁, none)
        else (s₁, some stanza)
      | none => (s₁, some stanza)
    else (s₁, some stanza)

/-- The worker events relevant to non-existent-entity suppression. -/
inductive WorkerEvent where
  | iq404 (fromJid : String)
  | assign (entityId : String) (entityData : Option EntityConfig)
  | unassign (entityId : String)
  | enqueue (stanza : Stanza)
  | tick

def workerStep (s : WorkerState) (ev : WorkerEvent) : WorkerState × List Stanza :=
  match ev with
  | .iq404 fromJid => ((handle404Error s fromJid).1, [])
  | .assign entityId entityData => (handleEntityAssignment s entityId entityData, [])
  | .unassign entityId => (handleEntityUnassignment s entityId, [])
  | .enqueue stanza => (queueStanza s stanza, [])
  | .tick =>
    let (s₁, sent) := processStanzaQueue s
    (s₁, sent.toList)

/-- Run a list of worker events, collecting every stanza actually sent. -/
def workerRun (s : WorkerState) : List WorkerEvent → WorkerState × List Stanza
  | [] => (s, [])
  | ev :: evs =>
    let (s₁, sent) := workerStep s ev
    let (s₂, sentRest) := workerRun s₁ evs
    (s₂, sent ++ sentRest)

/-! ### `worker/index.js` reconnection circuit breaker -/

/-- The `StateManager` reconnection fields plus whether a non-zero-status
process exit has been scheduled. -/
structure ReconnectionState where
  reconnectionAttempts : Nat
  lastReconnectionTime : Nat
  reconnectionBackoffMs : Nat
  exitScheduled : Bool
deriving DecidableEq, Repr

/-- Initial `StateManager` values: 0 attempts, 5000 ms backoff. -/
def ReconnectionState.initial : ReconnectionState :=
  { reconnectionAttempts := 0
    lastReconnectionTime := 0
    reconnectionBackoffMs := 5000
    exitScheduled := false }

/-- `shouldAttemptReconnection()`: circuit breaker at 10 attempts, then the
backoff window. -/
def shouldAttemptReconnection (now : Nat) (s : ReconnectionState) : Bool :=
  if 10 ≤ s.reconnectionAttempts then false
  else if now - s.lastReconnectionTime < s.reconnectionBackoffMs then false
  else true

/-- `recordReconnectionAttempt()`: increment the counter, stamp the time,
double the backoff up to the 5-minute cap, and schedule a `process.exit(1)`
when the counter reaches 10. -/
def recordReconnectionAttempt (now : Nat) (s : ReconnectionState) : ReconnectionState :=
  let attempts := s.reconnectionAttempts + 1
  { reconnectionAttempts := attempts
    lastReconnectionTime := now
    reconnectionBackoffMs := min (s.reconnectionBackoffMs * 2) 300000
    exitScheduled := s.exitScheduled || 10 ≤ attempts }

/-- `resetReconnectionState()` on a successful online transition. -/
def resetReconnectionState (s : ReconnectionState) : ReconnectionState :=
  { s with reconnectionAttempts := 0, reconnectionBackoffMs := 5000 }

/-- `connectXmpp()` as seen by the reconnection fields: the attempt is
recorded only when `shouldAttemptReconnection` passes. -/
def connectAttempt (now : Nat) (s : ReconnectionState) : ReconnectionState :=
  if shouldAttemptReconnection now s then recordReconnectionAttempt now s else s

inductive ReconnectionEvent where
  | attempt (now : Nat)
  | online

def reconnectionStep (s : ReconnectionState) : ReconnectionEvent → ReconnectionState
  | .attempt now => connectAttempt now s
  | .online => resetReconnectionState s

def reconnectionRun (events : List ReconnectionEvent) : ReconnectionState :=
  events.foldl reconnectionStep ReconnectionState.initial

/-! ### `db-api/index.js` token refresh throttle -/

/-- The in-memory `lastTokenRefreshAt` map of the data-plane service. -/
structure TokenRefreshTracker where
  lastTokenRefreshAt : Dict String Nat
deriving DecidableEq, Repr

/-- `refreshBotAccessTokenIfNeeded(botId, options)`: refresh (and stamp the
time) only when at least the minimum interval has elapsed since the last
refresh for this bot; forced calls use the 60 s minimum, normal calls the
30 min one.  Returns whether an upstream refresh was performed. -/
def refreshBotAccessTokenIfNeeded (s : TokenRefreshTracker) (botId : String)
    (force : Bool) (now : Nat) : TokenRefreshTracker × Bool :=
  let minInterval := if force then forceRefreshMinIntervalMs else tokenRefreshIntervalMs
  let last := (Dict.get? s.lastTokenRefreshAt botId).getD 0
  if now - last < minInterval then (s, false)
  else ({ lastTokenRefreshAt := Dict.set s.lastTokenRefreshAt botId now }, true)

/-! ### Operation sequences over the banned-words manager -/

/-- The two data-plane-driven entity operations on `BannedWordsManager`. -/
inductive BWOp where
  | configure (entityId : String) (profanityConfig : Option ProfanityConfig)
      (fetch : Nat → Option (List String))
  | cleanup (entityId : String)

def applyBWOp (s : BWMState) : BWOp → BWMState
  | .configure entityId profanityConfig fetch => configureEntity fetch s entityId profanityConfig
  | .cleanup entityId => cleanupEntity s entityId

def runBWOps (ops : List BWOp) : BWMState :=
  ops.foldl applyBWOp BWMState.initial

/-- A configure operation whose data-plane preset fetches all succeed. -/
def BWOp.fetchTotal : BWOp → Prop
  | .configure _ _ fetch => ∀ presetId, (fetch presetId).isSome
  | .cleanup _ => True

/-- Feed `n` successive valid groupchat messages through the timer stage
for one room, collecting the emitted timed messages in order. -/
def feedMessages (roomId : String) (roomConfig : EntityConfig) :
    CounterState → Nat → CounterState × List TimerEntry
  | s, 0 => (s, [])
  | s, n + 1 =>
    let (s₁, emitted) := processTimedMessages s roomId roomConfig
    let (s₂, rest) := feedMessages roomId roomConfig s₁ n
    (s₂, emitted.toList ++ rest)

/-- The effective mute duration used by stage A:
`profanityConfig?.mute_duration_seconds ?? constants.moderation.bannedWordMuteDuration`. -/
def effectiveMuteDuration (profanityFilterConfigs : Dict String ProfanityConfig)
    (roomId : String) : Nat :=
  match Dict.get? profanityFilterConfigs roomId with
  | some profanityConfig => (profanityConfig.mute_duration_seconds).getD bannedWordMuteDuration
  | none => bannedWordMuteDuration

/-- Invariant of the preset cache: every preset id referenced by some
currently configured entity is present in `presetWords`. -/
def referencedPresetsCached (s : BWMState) : Prop :=
  ∀ entityId config presetId,
    Dict.get? s.entityConfigs entityId = some config →
    config.presetId = some presetId →
    Dict.hasKey s.presetWords presetId = true

/-! ## Helper lemmas -/

namespace Dict

variable {α β : Type} [DecidableEq α]

theorem get?_set_self (m : Dict α β) (k : α) (v : β) : get? (set m k v) k = some v := by
  induction m with
  | nil => simp [set, get?]
  | cons hd tl ih =>
    obtain ⟨k₀, v₀⟩ := hd
    by_cases h : k₀ = k
    · simp [set, get?, h]
    · simp [set, get?, h, ih]

theorem get?_set_ne (m : Dict α β) (k k₁ : α) (v : β) (h : k ≠ k₁) :
    get? (set m k v) k₁ = get? m k₁ := by
  induction m with
  | nil => simp [set, get?, h]
  | cons hd tl ih =>
    obtain ⟨k₀, v₀⟩ := hd
    by_cases h₀ : k₀ = k
    · subst h₀
      simp [set, get?, h]
    · simp [set, get?, h₀, ih]

theorem get?_erase_self (m : Dict α β) (k : α) : get? (erase m k) k = none := by
  induction m with
  | nil => simp [erase, get?]
  | cons hd tl ih =>
    obtain ⟨k₀, v₀⟩ := hd
    by_cases h : k₀ = k
    · simp [erase, h, ih]
    · simp [erase, get?, h, ih]

theorem get?_erase_ne (m : Dict α β) (k k₁ : α) (h : k ≠ k₁) :
    get? (erase m k) k₁ = get? m k₁ := by
  induction m with
  | nil => simp [erase]
  | cons hd tl ih =>
    obtain ⟨k₀, v₀⟩ := hd
    by_cases h₀ : k₀ = k
    · subst h₀
      simp [erase, get?, h, ih]
    · simp [erase, get?, h₀, ih]

theorem get?_mem {m : Dict α β} {k : α} {v : β} (h : get? m k = some v) : (k, v) ∈ m := by
  induction m with
  | nil => simp [get?] at h
  | cons hd tl ih =>
    obtain ⟨k₀, v₀⟩ := hd
    by_cases h₀ : k₀ = k
    · subst h₀
      simp [get?] at h
      simp [h]
    · simp [get?, h₀] at h
      exact List.mem_cons_of_mem _ (ih h)

theorem values_of_get? {m : Dict α β} {k : α} {v : β} (h : get? m k = some v) :
    v ∈ values m := by
  have := get?_mem h
  simpa [values] using List.mem_map_of_mem Prod.snd this

theorem mem_values_erase {m : Dict α β} {k : α} {v : β}
    (h : v ∈ values (erase m k)) : v ∈ values m := by
  induction m with
  | nil => simpa [erase] using h
  | cons hd tl ih =>
    obtain ⟨k₀, v₀⟩ := hd
    by_cases h₀ : k₀ = k
    · subst h₀
      simp [erase] at h
      exact List.mem_cons_of_mem _ (ih h)
    · have h1 : erase ((k₀, v₀) :: tl) k = (k₀, v₀) :: erase tl k := by
        simp [erase, h₀]
      rw [h1] at h
      have h2 : v = v₀ ∨ v ∈ values (erase tl k) := by
        simpa [values] using h
      rcases h2 with h2 | h2
      · simp [values, h2]
      · exact List.mem_cons_of_mem _ (ih h2)

theorem get?_erase_of_values {m : Dict α β} {k k₁ : α} {v : β}
    (h : get? (erase m k) k₁ = some v) : v ∈ values m :=
  mem_values_erase (values_of_get? h)

theorem get?_erase_some {m : Dict α β} {k k₁ : α} {v : β}
    (h : get? (erase m k) k₁ = some v) : get? m k₁ = some v := by
  by_cases hk : k = k₁
  · subst hk
    rw [get?_erase_self] at h
    exact absurd h (by simp)
  · rwa [get?_erase_ne m k k₁ hk] at h

theorem hasKey_set_self (m : Dict α β) (k : α) (v : β) : hasKey (set m k v) k = true := by
  simp [hasKey, get?_set_self]

theorem hasKey_set_of_hasKey (m : Dict α β) (k k₁ : α) (v : β)
    (h : hasKey m k₁ = true) : hasKey (set m k v) k₁ = true := by
  by_cases hk : k = k₁
  · subst hk
    exact hasKey_set_self m k v
  · simpa [hasKey, get?_set_ne m k k₁ v hk] using h

theorem hasKey_erase_ne (m : Dict α β) (k k₁ : α) (h : k ≠ k₁) :
    hasKey (erase m k) k₁ = hasKey m k₁ := by
  simp [hasKey, get?_erase_ne m k k₁ h]

end Dict

theorem listHas_append_self {α : Type} [DecidableEq α] (l : List α) (x : α) :
    listHas (l ++ [x]) x = true := by
  simp [listHas]

theorem listHas_mono {α : Type} [DecidableEq α] (l : List α) (x y : α)
    (h : listHas l y = true) : listHas (l ++ [x]) y = true := by
  simp [listHas] at h ⊢
  exact Or.inl h

theorem listHas_setAdd_self (l : List String) (x : String) :
    listHas (setAdd l x) x = true := by
  by_cases h : listHas l x = true
  · simp [setAdd, h]
  · have h₁ : listHas l x = false := by
      cases hx : listHas l x
      · rfl
      · exact absurd hx h
    simp [setAdd, h₁, listHas_append_self]

theorem listHas_setAdd_of (l : List String) (x y : String)
    (h : listHas l y = true) : listHas (setAdd l x) y = true := by
  by_cases hx : listHas l x = true
  · simpa [setAdd, hx] using h
  · have h₁ : listHas l x = false := by
      cases hc : listHas l x
      · rfl
      · exact absurd hc hx
    simpa [setAdd, h₁] using listHas_mono l x y h

theorem listHas_iff_mem {α : Type} [DecidableEq α] (l : List α) (x : α) :
    listHas l x = true ↔ x ∈ l := by
  constructor
  · intro h
    simp only [listHas, List.any_eq_true, decide_eq_true_eq] at h
    obtain ⟨y, hy, hyx⟩ := h
    exact hyx ▸ hy
  · intro h
    simp only [listHas, List.any_eq_true, decide_eq_true_eq]
    exact ⟨x, h, rfl⟩

theorem listHas_setDelete_self (l : List String) (x : String) :
    listHas (setDelete l x) x = false := by
  cases h : listHas (setDelete l x) x
  · rfl
  · exfalso
    have hx := (listHas_iff_mem _ _).mp h
    simp [setDelete, List.mem_filter] at hx

theorem listHas_setDelete_of (l : List String) (x y : String) (h : y ≠ x)
    (hy : listHas l y = true) : listHas (setDelete l x) y = true := by
  refine (listHas_iff_mem _ _).mpr ?_
  refine List.mem_filter.mpr ⟨(listHas_iff_mem _ _).mp hy, ?_⟩
  simp [h]


theorem getMessageCount_setMessageCount (s : CounterState) (roomId : String) (count : Nat) :
    getMessageCount (setMessageCount s roomId count) roomId = count := by
  simp [getMessageCount, setMessageCount, Dict.get?_set_self]

theorem getAutoMessageTurn_setMessageCount (s : CounterState) (roomId : String) (count : Nat) :
    getAutoMessageTurn (setMessageCount s roomId count) roomId =
      getAutoMessageTurn s roomId := rfl

theorem getAutoMessageTurn_set_self (s : CounterState) (roomId : String) (turn : Nat) :
    getAutoMessageTurn
      { s with autoMessageTurn := Dict.set s.autoMessageTurn roomId turn } roomId = turn := by
  simp [getAutoMessageTurn, Dict.get?_set_self]

/-- The timer stage on a message that does not reach the threshold:
no emission, counter incremented, cursor untouched. -/
theorem processTimedMessages_silent (s : CounterState) (roomId : String)
    (roomConfig : EntityConfig)
    (h : ¬(roomConfig.timers.length > 0 ∧
      getMessageCount s roomId + 1 > roomConfig.timer_counter_max)) :
    processTimedMessages s roomId roomConfig =
      (setMessageCount s roomId (getMessageCount s roomId + 1), none) := by
  have hcond : (decide (roomConfig.timers.length > 0) &&
      decide (getMessageCount s roomId + 1 > roomConfig.timer_counter_max)) = false := by
    rcases Decidable.not_and_iff_or_not.mp h with h₁ | h₁ <;> simp [h₁]
  simp [processTimedMessages, hcond]

/-- The timer stage on a message that reaches the threshold: the cursor
advances `(turn + 1) % n` before emission, the entry at the new cursor is
emitted, and the counter resets. -/
theorem processTimedMessages_emit (s : CounterState) (roomId : String)
    (roomConfig : EntityConfig) (h : roomConfig.timers.length > 0)
    (hc : getMessageCount s roomId + 1 > roomConfig.timer_counter_max) :
    (processTimedMessages s roomId roomConfig).2 =
      roomConfig.timers.get?
        ((getAutoMessageTurn s roomId + 1) % roomConfig.timers.length) ∧
    getAutoMessageTurn (processTimedMessages s roomId roomConfig).1 roomId =
      (getAutoMessageTurn s roomId + 1) % roomConfig.timers.length ∧
    getMessageCount (processTimedMessages s roomId roomConfig).1 roomId = 0 := by
  have h' : 0 < roomConfig.timers.length := h
  have hc' : roomConfig.timer_counter_max < (Dict.get? s.messageCounts roomId).getD 0 + 1 := hc
  refine ⟨?_, ?_, ?_⟩ <;>
    simp [processTimedMessages, incrementAutoMessageTurn, setMessageCount, getMessageCount,
      getAutoMessageTurn, Dict.get?_set_self, h', hc']

/-- Feeding `m` messages that all stay at or below the threshold emits
nothing and adds `m` to the counter. -/
theorem feedMessages_silent (roomId : String) (roomConfig : EntityConfig) (m : Nat) :
    ∀ s : CounterState,
      getMessageCount s roomId + m ≤ roomConfig.timer_counter_max →
      (feedMessages roomId roomConfig s m).2 = [] ∧
      getMessageCount (feedMessages roomId roomConfig s m).1 roomId =
        getMessageCount s roomId + m ∧
      getAutoMessageTurn (feedMessages roomId roomConfig s m).1 roomId =
        getAutoMessageTurn s roomId := by
  induction m with
  | zero => intro s _; simp [feedMessages]
  | succ m ih =>
    intro s hm
    have hsilent := processTimedMessages_silent s roomId roomConfig (by omega)
    have hstep : feedMessages roomId roomConfig s (m + 1) =
        feedMessages roomId roomConfig
          (setMessageCount s roomId (getMessageCount s roomId + 1)) m := by
      simp [feedMessages, hsilent]
    have hcount := getMessageCount_setMessageCount s roomId (getMessageCount s roomId + 1)
    have ihall := ih (setMessageCount s roomId (getMessageCount s roomId + 1))
      (by rw [hcount]; omega)
    rw [hstep]
    refine ⟨ihall.1, ?_, ?_⟩
    · rw [ihall.2.1, hcount]; omega
    · rw [ihall.2.2, getAutoMessageTurn_setMessageCount]

/-- One burst: starting `k` messages below the threshold, feeding `k + 1`
messages produces exactly one emission — the entry at `(turn + 1) % n` —
and leaves the counter at 0 and the cursor at the new position. -/
theorem feedMessages_burst (roomId : String) (roomConfig : EntityConfig)
    (h : roomConfig.timers.length > 0) (k : Nat) :
    ∀ s : CounterState,
      getMessageCount s roomId + k = roomConfig.timer_counter_max →
      (feedMessages roomId roomConfig s (k + 1)).2 =
        (roomConfig.timers.get?
          ((getAutoMessageTurn s roomId + 1) % roomConfig.timers.length)).toList ∧
      getMessageCount (feedMessages roomId roomConfig s (k + 1)).1 roomId = 0 ∧
      getAutoMessageTurn (feedMessages roomId roomConfig s (k + 1)).1 roomId =
        (getAutoMessageTurn s roomId + 1) % roomConfig.timers.length := by
  induction k with
  | zero =>
    intro s hk
    have hemit := processTimedMessages_emit s roomId roomConfig h (by omega)
    have hfeed : feedMessages roomId roomConfig s 1 =
        ((processTimedMessages s roomId roomConfig).1,
          ((processTimedMessages s roomId roomConfig).2).toList ++ []) := by
      simp [feedMessages]
    rw [hfeed]
    simp only [List.append_nil]
    exact ⟨by rw [hemit.1], hemit.2.2, hemit.2.1⟩
  | succ k ih =>
    intro s hk
    have hsilent := processTimedMessages_silent s roomId roomConfig (by omega)
    have hstep2 : (feedMessages roomId roomConfig s (k + 1 + 1)).2 =
        (feedMessages roomId roomConfig
          (setMessageCount s roomId (getMessageCount s roomId + 1)) (k + 1)).2 := by
      simp [feedMessages, hsilent]
    have hstep1 : (feedMessages roomId roomConfig s (k + 1 + 1)).1 =
        (feedMessages roomId roomConfig
          (setMessageCount s roomId (getMessageCount s roomId + 1)) (k + 1)).1 := by
      simp [feedMessages, hsilent]
    have hcount := getMessageCount_setMessageCount s roomId (getMessageCount s roomId + 1)
    have ihall := ih (setMessageCount s roomId (getMessageCount s roomId + 1))
      (by rw [hcount]; omega)
    refine ⟨?_, ?_, ?_⟩
    · rw [hstep2, ihall.1, getAutoMessageTurn_setMessageCount]
    · rw [hstep1]
      exact ihall.2.1
    · rw [hstep1, ihall.2.2, getAutoMessageTurn_setMessageCount]

/-- Splitting a feed into two runs. -/
theorem feedMessages_add (roomId : String) (roomConfig : EntityConfig) (a b : Nat) :
    ∀ s : CounterState,
      feedMessages roomId roomConfig s (a + b) =
        ((feedMessages roomId roomConfig
            (feedMessages roomId roomConfig s a).1 b).1,
          (feedMessages roomId roomConfig s a).2 ++
            (feedMessages roomId roomConfig
              (feedMessages roomId roomConfig s a).1 b).2) := by
  induction a with
  | zero => intro s; simp [feedMessages]
  | succ a ih =>
    intro s
    have : a + 1 + b = (a + b) + 1 := by omega
    rw [this]
    simp only [feedMessages]
    rw [ih]
    simp [feedMessages, List.append_assoc]

/-- **C8** — For every entity with a non-empty timers list and threshold
`timer_counter_max = k`, a message taking the counter past `k` advances the
cursor `(cursor + 1) % n` BEFORE emission, queues the entry at the new
cursor, and resets the counter; from a fresh room state, the `j`-th burst
of `k + 1` messages therefore emits `timers[(j) % n]` for `j = 1, 2, ...` —
the rotation starts with `t1` on the first trigger and cycles in order. -/
theorem timedMessagesRotation (roomId : String) (roomConfig : EntityConfig)
    (h : roomConfig.timers.length > 0) :
    (∀ s : CounterState,
      getMessageCount s roomId + 1 > roomConfig.timer_counter_max →
      (processTimedMessages s roomId roomConfig).2 =
        roomConfig.timers.get?
          ((getAutoMessageTurn s roomId + 1) % roomConfig.timers.length) ∧
      getAutoMessageTurn (processTimedMessages s roomId roomConfig).1 roomId =
        (getAutoMessageTurn s roomId + 1) % roomConfig.timers.length ∧
      getMessageCount (processTimedMessages s roomId roomConfig).1 roomId = 0) ∧
    (∀ j : Nat,
      (feedMessages roomId roomConfig CounterState.initial
          ((roomConfig.timer_counter_max + 1) * j)).2 =
        (List.range j).filterMap fun i =>
          roomConfig.timers.get? ((i + 1) % roomConfig.timers.length)) := by
  constructor
  · intro s hc
    exact processTimedMessages_emit s roomId roomConfig h hc
  · have key : ∀ j : Nat,
        (feedMessages roomId roomConfig CounterState.initial
            ((roomConfig.timer_counter_max + 1) * j)).2 =
          ((List.range j).filterMap fun i =>
            roomConfig.timers.get? ((i + 1) % roomConfig.timers.length)) ∧
        getMessageCount (feedMessages roomId roomConfig CounterState.initial
            ((roomConfig.timer_counter_max + 1) * j)).1 roomId = 0 ∧
        getAutoMessageTurn (feedMessages roomId roomConfig CounterState.initial
            ((roomConfig.timer_counter_max + 1) * j)).1 roomId =
          j % roomConfig.timers.length := by
      intro j
      induction j with
      | zero =>
        refine ⟨by simp [feedMessages], ?_, ?_⟩
        · simp [feedMessages, getMessageCount, CounterState.initial, Dict.get?]
        · simp [feedMessages, getAutoMessageTurn, CounterState.initial, Dict.get?]
      | succ j ih =>
        have hmul : (roomConfig.timer_counter_max + 1) * (j + 1) =
            (roomConfig.timer_counter_max + 1) * j + (roomConfig.timer_counter_max + 1) := by
          ring
        rw [hmul, feedMessages_add]
        have hburst := feedMessages_burst roomId roomConfig h roomConfig.timer_counter_max
          (feedMessages roomId roomConfig CounterState.initial
            ((roomConfig.timer_counter_max + 1) * j)).1
          (by rw [ih.2.1]; omega)
        refine ⟨?_, hburst.2.1, ?_⟩
        · rw [ih.1, hburst.1, ih.2.2]
          have hnth : (j % roomConfig.timers.length + 1) % roomConfig.timers.length =
              (j + 1) % roomConfig.timers.length := Nat.mod_add_mod j roomConfig.timers.length 1
          rw [hnth, List.range_succ, List.filterMap_append]
          have hsome : List.filterMap (fun i =>
              roomConfig.timers.get? ((i + 1) % roomConfig.timers.length)) [j] =
              (roomConfig.timers.get? ((j + 1) % roomConfig.timers.length)).toList := by
            cases hg : roomConfig.timers.get? ((j + 1) % roomConfig.timers.length) with
            | none =>
              rw [List.filterMap_cons, hg]
              rfl
            | some t =>
              rw [List.filterMap_cons, hg]
              rfl
          rw [hsome]
        · rw [hburst.2.2, ih.2.2]
          exact Nat.mod_add_mod j roomConfig.timers.length 1
    intro j
    exact (key j).1

/-- **C8 witness** — scenario: timers `[t0, t1, t2]`, `timer_counter_max = 2`;
nine messages produce emissions `[t1, t2, t0]`. -/
theorem timedMessagesRotation_witness :
    (let t0 : TimerEntry := { message := "m0", upload_id := none }
     let t1 : TimerEntry := { message := "m1", upload_id := none }
     let t2 : TimerEntry := { message := "m2", upload_id := none }
     let cfg : EntityConfig :=
       { guid := "e3", type := "community", parent_guid := none, commands := []
         timers := [t0, t1, t2], timer_counter_max := 2, read_only := false
         welcome_message := none }
     (feedMessages "e3" cfg CounterState.initial 9).2 = [t1, t2, t0]) := by
  have happly := (timedMessagesRotation "e3"
    { guid := "e3", type := "community", parent_guid := none, commands := []
      timers := [{ message := "m0", upload_id := none },
        { message := "m1", upload_id := none },
        { message := "m2", upload_id := none }], timer_counter_max := 2, read_only := false
      welcome_message := none } (by decide)).2 3
  simpa using happly

/-- **C10** — whenever the timer stage runs for a room with a non-empty
timers list, the cursor it uses is `(stored + 1) mod n` with `n` the
CURRENT list length, hence strictly in bounds, and the `timers.at(cursor)`
lookup is defined whenever the stage emits — even if the stored cursor
predates a replacement of the timers list by a shorter one. -/
theorem timerCursorAlwaysInBounds (s : CounterState) (roomId : String)
    (roomConfig : EntityConfig) (h : roomConfig.timers.length > 0) :
    (getAutoMessageTurn s roomId + 1) % roomConfig.timers.length <
        roomConfig.timers.length ∧
    (getMessageCount s roomId + 1 > roomConfig.timer_counter_max →
      (processTimedMessages s roomId roomConfig).2 =
        roomConfig.timers.get?
          ((getAutoMessageTurn s roomId + 1) % roomConfig.timers.length) ∧
      ((processTimedMessages s roomId roomConfig).2).isSome = true) := by
  have hmod : (getAutoMessageTurn s roomId + 1) % roomConfig.timers.length <
      roomConfig.timers.length := Nat.mod_lt _ h
  refine ⟨hmod, fun hc => ?_⟩
  have hemit := processTimedMessages_emit s roomId roomConfig h hc
  refine ⟨hemit.1, ?_⟩
  rw [hemit.1]
  have hne : roomConfig.timers.get?
      ((getAutoMessageTurn s roomId + 1) % roomConfig.timers.length) ≠ none := by
    intro hnone
    have := List.get?_eq_none.mp hnone
    omega
  exact Option.isSome_iff_ne_none.mpr hne

/-- **C10 witness** — a room whose stored cursor (7) predates a timers list
of length 2: the recomputed cursor is 0 and the lookup is defined. -/
theorem timerCursorAlwaysInBounds_witness :
    ((7 + 1) % 2 < 2 ∧
      (0 + 1 > 0 →
        (processTimedMessages
          { messageCounts := [], autoMessageTurn := [("r1", 7)] } "r1"
          { guid := "r1", type := "community", parent_guid := none, commands := []
            timers := [{ message := "a", upload_id := none },
              { message := "b", upload_id := none }]
            timer_counter_max := 0, read_only := false, welcome_message := none }).2 =
          [{ message := "a", upload_id := none },
            { message := "b", upload_id := none }].get? ((7 + 1) % 2) ∧
        ((processTimedMessages
          { messageCounts := [], autoMessageTurn := [("r1", 7)] } "r1"
          { guid := "r1", type := "community", parent_guid := none, commands := []
            timers := [{ message := "a", upload_id := none },
              { message := "b", upload_id := none }]
            timer_counter_max := 0, read_only := false, welcome_message := none }).2).isSome =
          true)) := by
  exact timerCursorAlwaysInBounds
    { messageCounts := [], autoMessageTurn := [("r1", 7)] } "r1"
    { guid := "r1", type := "community", parent_guid := none, commands := []
      timers := [{ message := "a", upload_id := none }, { message := "b", upload_id := none }]
      timer_counter_max := 0, read_only := false, welcome_message := none } (by decide)

/-- **C7** — the reconnection backoff starts at 5 s, each recorded attempt
updates it to `min(previous × 2, 5 min)` and increments the counter; over
any sequence of attempts and online transitions the counter never exceeds
10, and whenever it reaches 10 a non-zero-status process exit has been
scheduled; a successful online transition resets the counter to 0 and the
backoff to 5 s. -/
theorem reconnectionCircuitBreaker :
    ReconnectionState.initial.reconnectionBackoffMs = 5000 ∧
    ReconnectionState.initial.reconnectionAttempts = 0 ∧
    (∀ (now : Nat) (s : ReconnectionState),
      (recordReconnectionAttempt now s).reconnectionBackoffMs =
        min (s.reconnectionBackoffMs * 2) 300000) ∧
    (∀ (now : Nat) (s : ReconnectionState),
      (recordReconnectionAttempt now s).reconnectionAttempts =
        s.reconnectionAttempts + 1) ∧
    (∀ s : ReconnectionState,
      (resetReconnectionState s).reconnectionAttempts = 0 ∧
      (resetReconnectionState s).reconnectionBackoffMs = 5000) ∧
    (∀ events : List ReconnectionEvent,
      (reconnectionRun events).reconnectionAttempts ≤ 10 ∧
      ((reconnectionRun events).reconnectionAttempts < 10 ∨
        (reconnectionRun events).exitScheduled = true)) := by
  refine ⟨rfl, rfl, fun now s => rfl, fun now s => rfl,
    fun s => ⟨rfl, rfl⟩, ?_⟩
  have hstep : ∀ (s : ReconnectionState) (ev : ReconnectionEvent),
      s.reconnectionAttempts ≤ 10 →
      (s.reconnectionAttempts < 10 ∨ s.exitScheduled = true) →
      (reconnectionStep s ev).reconnectionAttempts ≤ 10 ∧
        ((reconnectionStep s ev).reconnectionAttempts < 10 ∨
          (reconnectionStep s ev).exitScheduled = true) := by
    intro s ev h1 h2
    cases ev with
    | online =>
      refine ⟨?_, Or.inl ?_⟩ <;> simp [reconnectionStep, resetReconnectionState]
    | attempt now =>
      by_cases hg : shouldAttemptReconnection now s = true
      · have hlt : s.reconnectionAttempts < 10 := by
          by_contra hge
          have hge' : 10 ≤ s.reconnectionAttempts := by omega
          simp [shouldAttemptReconnection, hge'] at hg
        constructor
        · simp [reconnectionStep, connectAttempt, hg, recordReconnectionAttempt]
          omega
        · by_cases hnine : s.reconnectionAttempts + 1 < 10
          · exact Or.inl (by
              simp [reconnectionStep, connectAttempt, hg, recordReconnectionAttempt]
              omega)
          · refine Or.inr ?_
            have hten : 10 ≤ s.reconnectionAttempts + 1 := by omega
            simp [reconnectionStep, connectAttempt, hg, recordReconnectionAttempt, hten]
      · have hg' : shouldAttemptReconnection now s = false := by
          cases hval : shouldAttemptReconnection now s
          · rfl
          · exact absurd hval hg
        have hstepeq : reconnectionStep s (ReconnectionEvent.attempt now) = s := by
          simp [reconnectionStep, connectAttempt, hg']
        rw [hstepeq]
        exact ⟨h1, h2⟩
  intro events
  suffices hall : ∀ s : ReconnectionState,
      s.reconnectionAttempts ≤ 10 →
      (s.reconnectionAttempts < 10 ∨ s.exitScheduled = true) →
      (events.foldl reconnectionStep s).reconnectionAttempts ≤ 10 ∧
        ((events.foldl reconnectionStep s).reconnectionAttempts < 10 ∨
          (events.foldl reconnectionStep s).exitScheduled = true) by
    exact hall ReconnectionState.initial (by simp [ReconnectionState.initial])
      (Or.inl (by simp [ReconnectionState.initial]))
  induction events with
  | nil => intro s h1 h2; exact ⟨h1, h2⟩
  | cons ev evs ih =>
    intro s h1 h2
    exact ih (reconnectionStep s ev) (hstep s ev h1 h2).1 (hstep s ev h1 h2).2

/-- **C9** — the data-plane token refresh is rate-limited per bot: a call
performs an upstream refresh iff at least the minimum interval (60 s when
forced, 30 min otherwise) has elapsed since the bot's last refresh stamp;
consequently two same-mode calls within that interval trigger at most one
refresh. -/
theorem tokenRefreshRateLimitedPerBot :
    (∀ (s : TokenRefreshTracker) (botId : String) (force : Bool) (now : Nat),
      ((refreshBotAccessTokenIfNeeded s botId force now).2 = true ↔
        (if force then forceRefreshMinIntervalMs else tokenRefreshIntervalMs) ≤
          now - (Dict.get? s.lastTokenRefreshAt botId).getD 0)) ∧
    (∀ (s : TokenRefreshTracker) (botId : String) (t₁ t₂ : Nat) (force : Bool),
      t₂ < t₁ + (if force then forceRefreshMinIntervalMs else tokenRefreshIntervalMs) →
      ¬((refreshBotAccessTokenIfNeeded s botId force t₁).2 = true ∧
        (refreshBotAccessTokenIfNeeded
          (refreshBotAccessTokenIfNeeded s botId force t₁).1 botId force t₂).2 = true)) := by
  constructor
  · intro s botId force now
    by_cases hlt : now - (Dict.get? s.lastTokenRefreshAt botId).getD 0 <
        (if force then forceRefreshMinIntervalMs else tokenRefreshIntervalMs)
    · simp only [refreshBotAccessTokenIfNeeded, if_pos hlt]
      constructor
      · intro hfalse
        exact absurd hfalse (by simp)
      · intro hge
        exact absurd hge (by omega)
    · simp only [refreshBotAccessTokenIfNeeded, if_neg hlt]
      constructor
      · intro _
        omega
      · intro _
        trivial
  · intro s botId t₁ t₂ force h hboth
    obtain ⟨h1, h2⟩ := hboth
    by_cases hlt : t₁ - (Dict.get? s.lastTokenRefreshAt botId).getD 0 <
        (if force then forceRefreshMinIntervalMs else tokenRefreshIntervalMs)
    · simp [refreshBotAccessTokenIfNeeded, hlt] at h1
    · have ha : 0 < (if force then forceRefreshMinIntervalMs else tokenRefreshIntervalMs) := by
        cases force <;> simp [forceRefreshMinIntervalMs, tokenRefreshIntervalMs]
      have hs₁ : (refreshBotAccessTokenIfNeeded s botId force t₁).1.lastTokenRefreshAt =
          Dict.set s.lastTokenRefreshAt botId t₁ := by
        simp [refreshBotAccessTokenIfNeeded, hlt]
      generalize hX : (refreshBotAccessTokenIfNeeded s botId force t₁).1 = X at h2 hs₁
      have hlast : (Dict.get? X.lastTokenRefreshAt botId).getD 0 = t₁ := by
        rw [hs₁, Dict.get?_set_self]
        rfl
      have hlt2 : t₂ - (Dict.get? X.lastTokenRefreshAt botId).getD 0 <
          (if force then forceRefreshMinIntervalMs else tokenRefreshIntervalMs) := by
        rw [hlast]
        omega
      simp [refreshBotAccessTokenIfNeeded, hlt2] at h2

/-- **C9 witness** — bot "1": a first non-forced refresh at t = 30 min
succeeds, and a second non-forced call 1 s later is throttled. -/
theorem tokenRefreshRateLimitedPerBot_witness :
    ((refreshBotAccessTokenIfNeeded { lastTokenRefreshAt := [] } "1" false 1800000).2 = true ↔
      (if false then forceRefreshMinIntervalMs else tokenRefreshIntervalMs) ≤
        1800000 - (Dict.get?
          ({ lastTokenRefreshAt := [] } : TokenRefreshTracker).lastTokenRefreshAt "1").getD 0) ∧
    ¬((refreshBotAccessTokenIfNeeded { lastTokenRefreshAt := [] } "1" false 1800000).2 = true ∧
      (refreshBotAccessTokenIfNeeded
        (refreshBotAccessTokenIfNeeded
          { lastTokenRefreshAt := [] } "1" false 1800000).1 "1" false 1801000).2 = true) :=
  ⟨tokenRefreshRateLimitedPerBot.1 { lastTokenRefreshAt := [] } "1" false 1800000,
    tokenRefreshRateLimitedPerBot.2 { lastTokenRefreshAt := [] } "1" 1800000 1801000 false
      (by decide)⟩

/-- An exempt author never triggers stage A: `BannedWordsManager.checkBannedWords`
returns false before any word matching. -/
theorem managerCheckBannedWords_exempt (evasion : String → String → Bool)
    (s : BWMState) (botGuid : Option String) (message entityId author : String)
    (h : isAuthorExempt s botGuid entityId author = true) :
    managerCheckBannedWords evasion s botGuid message entityId author = false := by
  unfold managerCheckBannedWords
  split
  · rfl
  · split
    · rfl
    · split
      · rfl
      · simp [h]

/-- **C1 counterexample** — entity `room1` is read-only and `mgr1` is in its
manager set; a message from `mgr1` produces no stage-A action (even with a
matcher that flags everything), yet stage B deletes it and mutes `mgr1` for
10 s — so the claim that neither stage acts for managers is false. -/
theorem exemptAuthorModeration_counterexample :
    (let bwm : BWMState :=
      { presetWords := [], usedPresetIds := []
        entityConfigs := [("room1",
          { presetId := none, customWords := ["badword"], managerGuids := ["mgr1"]
            enabled := true })] }
     let pfc : Dict String ProfanityConfig :=
       [("room1",
         { is_active := true, banned_words_preset_id := none, custom_words := ["badword"]
           manager_guids := ["mgr1"], discord_webhook_url := none, message_reply := none
           mute_duration_seconds := some 60 })]
     let roomCfg : EntityConfig :=
       { guid := "room1", type := "community", parent_guid := none, commands := []
         timers := [], timer_counter_max := 30, read_only := true, welcome_message := none }
     moderationCheckBannedWords (fun _ _ => true) bwm pfc (some "botguid")
         "badword" "room1" "mgr1" "msg1" = (false, []) ∧
       processModeration (fun _ _ => true) bwm pfc (some "botguid") roomCfg
         "badword" "room1" "mgr1" "msg1" =
         (true, [ModAction.deleteRequest "msg1", ModAction.muteRequest "mgr1" 10])) := by
  decide

/-- **C1 amended** — authors in the manager set or equal to the bot's guid
never trigger stage A, and messages authored by the bot itself are dropped
by `validateMessage` before any stage runs; stage B, however, consults only
`read_only` and still deletes and mutes ANY author — exempt or not — when
the room is read-only. -/
theorem exemptAuthorsSkipStageAOnly (evasion : String → String → Bool)
    (bwm : BWMState) (pfc : Dict String ProfanityConfig) (botGuid : Option String)
    (roomConfig : EntityConfig) (msg roomId author msgId : String) :
    (isAuthorExempt bwm botGuid roomId author = true →
      moderationCheckBannedWords evasion bwm pfc botGuid msg roomId author msgId =
        (false, [])) ∧
    (∀ (g : String) (stanza : InboundGroupchat) (res : String),
      stanza.authorFullJid = some res →
      (String.mk (res.data.takeWhile (· ≠ '@'))) = g →
      validateMessage g stanza = none) ∧
    (roomConfig.read_only = true →
      enforceReadOnlyMode roomConfig roomId author msgId =
        (true, [ModAction.deleteRequest msgId,
          ModAction.muteRequest author readOnlyMuteDuration])) := by
  refine ⟨?_, ?_, ?_⟩
  · intro hex
    have hcheck := managerCheckBannedWords_exempt evasion bwm botGuid msg roomId author hex
    simp [moderationCheckBannedWords, hcheck]
  · intro g stanza res hres hguid
    unfold validateMessage
    cases hbody : stanza.body with
    | none => rfl
    | some content =>
      cases hdelay : stanza.delayTagged with
      | true => rfl
      | false =>
        rw [hres]
        show (if String.mk (res.data.takeWhile (· ≠ '@')) = "" then none
          else if String.mk (res.data.takeWhile (· ≠ '@')) = g then none
          else some
            ({ messageContent := content
               roomJid := stanza.roomJid
               messageAuthorGuid := String.mk (res.data.takeWhile (· ≠ '@'))
               messageId := stanza.stanzaId } : MessageData)) = none
        by_cases hempty : String.mk (res.data.takeWhile (· ≠ '@')) = ""
        · rw [if_pos hempty]
        · rw [if_neg hempty, if_pos hguid]
  · intro hro
    simp [enforceReadOnlyMode, hro, muteUserActions, readOnlyMuteDuration]

/-- **C1 witness** — concrete exempt author, bot-authored stanza, and
read-only room instantiating the amended statement. -/
theorem exemptAuthorsSkipStageAOnly_witness :
    (isAuthorExempt
        { presetWords := [], usedPresetIds := []
          entityConfigs := [("roomW",
            { presetId := none, customWords := [], managerGuids := ["mgrW"]
              enabled := true })] }
        (some "botW") "roomW" "mgrW" = true →
      moderationCheckBannedWords (fun _ _ => false)
        { presetWords := [], usedPresetIds := []
          entityConfigs := [("roomW",
            { presetId := none, customWords := [], managerGuids := ["mgrW"]
              enabled := true })] }
        [] (some "botW") "hello" "roomW" "mgrW" "mW" = (false, [])) ∧
    validateMessage "botW"
      { body := some "hi", delayTagged := false, roomJid := "club-x-general@muc"
        authorFullJid := some "botW@chat.faceit.com", stanzaId := "sW" } = none ∧
    enforceReadOnlyMode
      { guid := "roomW", type := "community", parent_guid := none, commands := []
        timers := [], timer_counter_max := 30, read_only := true, welcome_message := none }
      "roomW" "mgrW" "mW" =
      (true, [ModAction.deleteRequest "mW",
        ModAction.muteRequest "mgrW" readOnlyMuteDuration]) := by
  have happly := exemptAuthorsSkipStageAOnly (fun _ _ => false)
    { presetWords := [], usedPresetIds := []
      entityConfigs := [("roomW",
        { presetId := none, customWords := [], managerGuids := ["mgrW"]
          enabled := true })] }
    [] (some "botW")
    { guid := "roomW", type := "community", parent_guid := none, commands := []
      timers := [], timer_counter_max := 30, read_only := true, welcome_message := none }
    "hello" "roomW" "mgrW" "mW"
  exact ⟨fun _ => happly.1 (by decide),
    happly.2.1 "botW"
      { body := some "hi", delayTagged := false, roomJid := "club-x-general@muc"
        authorFullJid := some "botW@chat.faceit.com", stanzaId := "sW" }
      "botW@chat.faceit.com" rfl (by decide),
    happly.2.2 rfl⟩

/-- **C2 counterexample** — entity `room2` has a profanity config whose
`mute_duration_seconds` is absent (null): on a banned-word hit the worker
still issues a mute request — for the 24 h default (86400 s) — contradicting
the claim that no mute is issued when the field is absent. -/
theorem bannedWordMuteDefault_counterexample :
    (let bwm : BWMState :=
      { presetWords := [], usedPresetIds := []
        entityConfigs := [("room2",
          { presetId := none, customWords := ["badword"], managerGuids := []
            enabled := true })] }
     let pfc : Dict String ProfanityConfig :=
       [("room2",
         { is_active := true, banned_words_preset_id := none, custom_words := ["badword"]
           manager_guids := [], discord_webhook_url := none, message_reply := none
           mute_duration_seconds := none })]
     moderationCheckBannedWords (fun _ _ => false) bwm pfc (some "botguid")
       "badword" "room2" "user7" "msg2" =
       (true, [ModAction.webhookCall "room2", ModAction.deleteRequest "msg2",
         ModAction.muteRequest "user7" 86400])) := by
  decide

/-- **C2 amended** — on a banned-word hit the worker issues, in order: the
Discord webhook notification call, the configured reply (when present and
non-empty), the delete request, and a mute request whose duration is
`mute_duration_seconds ?? 86400`: an explicit 0 skips the mute, but an
ABSENT value falls back to the 24 h default and a mute IS issued. -/
theorem bannedWordHitActions (evasion : String → String → Bool)
    (bwm : BWMState) (pfc : Dict String ProfanityConfig) (botGuid : Option String)
    (msg roomId author msgId : String)
    (h : managerCheckBannedWords evasion bwm botGuid msg roomId author = true) :
    moderationCheckBannedWords evasion bwm pfc botGuid msg roomId author msgId =
      (true,
        ModAction.webhookCall roomId ::
          (match getMessageReply pfc roomId with
            | some reply => [ModAction.replyStanza reply]
            | none => []) ++
          ModAction.deleteRequest msgId ::
            (if effectiveMuteDuration pfc roomId = 0 then []
             else [ModAction.muteRequest author (effectiveMuteDuration pfc roomId)])) ∧
    (∀ config : ProfanityConfig, Dict.get? pfc roomId = some config →
      config.mute_duration_seconds = some 0 →
      ∀ (u : String) (d : Nat), ModAction.muteRequest u d ∉
        (moderationCheckBannedWords evasion bwm pfc botGuid msg roomId author msgId).2) ∧
    (∀ config : ProfanityConfig, Dict.get? pfc roomId = some config →
      config.mute_duration_seconds = none →
      ModAction.muteRequest author bannedWordMuteDuration ∈
        (moderationCheckBannedWords evasion bwm pfc botGuid msg roomId author msgId).2) := by
  have hmain : moderationCheckBannedWords evasion bwm pfc botGuid msg roomId author msgId =
      (true,
        ModAction.webhookCall roomId ::
          (match getMessageReply pfc roomId with
            | some reply => [ModAction.replyStanza reply]
            | none => []) ++
          ModAction.deleteRequest msgId ::
            (if effectiveMuteDuration pfc roomId = 0 then []
             else [ModAction.muteRequest author (effectiveMuteDuration pfc roomId)])) := by
    unfold moderationCheckBannedWords effectiveMuteDuration muteUserActions
    simp only [h, if_true]
  refine ⟨hmain, ?_, ?_⟩
  · intro config hcfg hzero u d hmem
    have hdur : effectiveMuteDuration pfc roomId = 0 := by
      simp [effectiveMuteDuration, hcfg, hzero]
    rw [hmain] at hmem
    cases hrep : getMessageReply pfc roomId <;>
      simp [hdur, hrep] at hmem
  · intro config hcfg hnone
    have hdur : effectiveMuteDuration pfc roomId = bannedWordMuteDuration := by
      simp [effectiveMuteDuration, hcfg, hnone]
    rw [hmain]
    have hmem : ModAction.muteRequest author bannedWordMuteDuration ∈
        (if effectiveMuteDuration pfc roomId = 0 then []
         else [ModAction.muteRequest author (effectiveMuteDuration pfc roomId)]) := by
      rw [hdur, if_neg (by decide)]
      simp
    exact List.mem_cons_of_mem _
      (List.mem_append_right _ (List.mem_cons_of_mem _ hmem))

/-- **C2 witness** — a hit in a room whose config sets no mute duration:
the issued action list ends with a 24 h (86400 s) mute request. -/
theorem bannedWordHitActions_witness :
    ModAction.muteRequest "uW2" bannedWordMuteDuration ∈
      (moderationCheckBannedWords (fun _ _ => false)
        { presetWords := [], usedPresetIds := []
          entityConfigs := [("rW2",
            { presetId := none, customWords := ["evil"], managerGuids := []
              enabled := true })] }
        [("rW2",
          { is_active := true, banned_words_preset_id := none, custom_words := ["evil"]
            manager_guids := [], discord_webhook_url := none, message_reply := some "no!"
            mute_duration_seconds := none })]
        (some "botW2") "so evil" "rW2" "uW2" "mW2").2 :=
  (bannedWordHitActions (fun _ _ => false)
    { presetWords := [], usedPresetIds := []
      entityConfigs := [("rW2",
        { presetId := none, customWords := ["evil"], managerGuids := []
          enabled := true })] }
    [("rW2",
      { is_active := true, banned_words_preset_id := none, custom_words := ["evil"]
        manager_guids := [], discord_webhook_url := none, message_reply := some "no!"
        mute_duration_seconds := none })]
    (some "botW2") "so evil" "rW2" "uW2" "mW2" (by decide)).2.2
    { is_active := true, banned_words_preset_id := none, custom_words := ["evil"]
      manager_guids := [], discord_webhook_url := none, message_reply := some "no!"
      mute_duration_seconds := none } (by decide) rfl

/-- **C3 counterexample** — a `!hi` message in a room whose counter crosses
the threshold: the timer stage emits a timed message AND the command stage
still runs and emits the command response for the same message — the claim
that stage D does not run after a stage-C emission is false. -/
theorem pipelineEarlyReturn_counterexample :
    (let roomCfg : EntityConfig :=
      { guid := "r3", type := "community", parent_guid := none
        commands := [("hi", { response := "hello there", upload_id := none })]
        timers := [{ message := "t0", upload_id := none },
          { message := "t1", upload_id := none }]
        timer_counter_max := 0, read_only := false, welcome_message := none }
     let result := handleGroupChatMessage (fun _ _ => false) BWMState.initial []
       (some "botguid") CounterState.initial roomCfg "!hi" "r3" "u3" "m3"
     result.timerEmit = some { message := "t1", upload_id := none } ∧
       result.commandEmit = some { response := "hello there", upload_id := none }) := by
  decide

/-- **C3 amended** — the pipeline returns early only on moderation: when
stage A or B acted, neither the timer stage nor the command stage runs; when
moderation did not act, the timer stage runs AND the command stage runs
unconditionally afterwards — a stage-C emission does not suppress stage D. -/
theorem pipelineEarlyReturn (evasion : String → String → Bool) (bwm : BWMState)
    (pfc : Dict String ProfanityConfig) (botGuid : Option String)
    (counters : CounterState) (roomConfig : EntityConfig)
    (msg roomId author msgId : String) :
    ((handleGroupChatMessage evasion bwm pfc botGuid counters roomConfig
        msg roomId author msgId).moderated = true →
      (handleGroupChatMessage evasion bwm pfc botGuid counters roomConfig
        msg roomId author msgId).timerEmit = none ∧
      (handleGroupChatMessage evasion bwm pfc botGuid counters roomConfig
        msg roomId author msgId).commandEmit = none ∧
      (handleGroupChatMessage evasion bwm pfc botGuid counters roomConfig
        msg roomId author msgId).counters = counters) ∧
    ((handleGroupChatMessage evasion bwm pfc botGuid counters roomConfig
        msg roomId author msgId).moderated = false →
      (handleGroupChatMessage evasion bwm pfc botGuid counters roomConfig
        msg roomId author msgId).timerEmit =
        (processTimedMessages counters roomId roomConfig).2 ∧
      (handleGroupChatMessage evasion bwm pfc botGuid counters roomConfig
        msg roomId author msgId).commandEmit = processCommands msg roomConfig) := by
  cases hm : (processModeration evasion bwm pfc botGuid roomConfig
      msg roomId author msgId).1 <;>
    constructor <;> intro hmod <;>
      simp [handleGroupChatMessage, hm] at hmod ⊢

/-- **C3 witness** — an unmoderated `!hi` message: the timer result and the
command result both come through, per the amended statement. -/
theorem pipelineEarlyReturn_witness :
    (handleGroupChatMessage (fun _ _ => false) BWMState.initial [] (some "botW3")
      CounterState.initial
      { guid := "rW3", type := "community", parent_guid := none
        commands := [("hi", { response := "yo", upload_id := none })]
        timers := [{ message := "s0", upload_id := none }]
        timer_counter_max := 0, read_only := false, welcome_message := none }
      "!hi" "rW3" "uW3" "mW3").timerEmit =
      (processTimedMessages CounterState.initial "rW3"
        { guid := "rW3", type := "community", parent_guid := none
          commands := [("hi", { response := "yo", upload_id := none })]
          timers := [{ message := "s0", upload_id := none }]
          timer_counter_max := 0, read_only := false, welcome_message := none }).2 ∧
    (handleGroupChatMessage (fun _ _ => false) BWMState.initial [] (some "botW3")
      CounterState.initial
      { guid := "rW3", type := "community", parent_guid := none
        commands := [("hi", { response := "yo", upload_id := none })]
        timers := [{ message := "s0", upload_id := none }]
        timer_counter_max := 0, read_only := false, welcome_message := none }
      "!hi" "rW3" "uW3" "mW3").commandEmit =
      processCommands "!hi"
        { guid := "rW3", type := "community", parent_guid := none
          commands := [("hi", { response := "yo", upload_id := none })]
          timers := [{ message := "s0", upload_id := none }]
          timer_counter_max := 0, read_only := false, welcome_message := none } :=
  (pipelineEarlyReturn (fun _ _ => false) BWMState.initial [] (some "botW3")
    CounterState.initial
    { guid := "rW3", type := "community", parent_guid := none
      commands := [("hi", { response := "yo", upload_id := none })]
      timers := [{ message := "s0", upload_id := none }]
      timer_counter_max := 0, read_only := false, welcome_message := none }
    "!hi" "rW3" "uW3" "mW3").2 (by decide)

/-- **C4** — `refreshPreset` stores the freshly fetched word list WITHOUT
`validateAndSanitizeWords`: after configuring entity `e1` with preset 1 and
then refreshing preset 1 with the fetched list `["(?=evil)"]`, the cache
holds the raw word, which violates the safe shape (it fails
`isSafeWordString` and contains a lookahead); the validation path would
have dropped it.  This contradicts invariant (M3) and the source's own
comment that every compiled pattern is pre-validated. -/
theorem refreshPresetSkipsValidation :
    Dict.get?
      (refreshPreset (fun _ => some ["(?=evil)"])
        (configureEntity (fun _ => some ["safe word"]) BWMState.initial "e1"
          (some
            { is_active := true, banned_words_preset_id := some 1, custom_words := []
              manager_guids := [], discord_webhook_url := none, message_reply := none
              mute_duration_seconds := none })) 1).presetWords 1 = some ["(?=evil)"] ∧
    isSafeWordString "(?=evil)" = false ∧
    containsDangerousRegexPatterns "(?=evil)" = true ∧
    validateAndSanitizeWords ["(?=evil)"] = [] := by
  decide

/-- After `initializePreset` with a succeeding fetch its preset is cached. -/
theorem initializePreset_hasKey (fetch : Nat → Option (List String)) (s : BWMState)
    (presetId : Nat) (hf : ∀ p, (fetch p).isSome) :
    Dict.hasKey (initializePreset fetch s presetId).presetWords presetId = true := by
  unfold initializePreset
  by_cases hk : Dict.hasKey s.presetWords presetId = true
  · simp [hk]
  · have hk' : Dict.hasKey s.presetWords presetId = false := by
      cases hval : Dict.hasKey s.presetWords presetId
      · rfl
      · exact absurd hval hk
    cases hfv : fetch presetId with
    | none =>
      have := hf presetId
      rw [hfv] at this
      simp at this
    | some rawWords =>
      simp [hk', hfv, Dict.hasKey_set_self]

/-- `initializePreset` never evicts a cached preset. -/
theorem initializePreset_mono (fetch : Nat → Option (List String)) (s : BWMState)
    (presetId q : Nat) (h : Dict.hasKey s.presetWords q = true) :
    Dict.hasKey (initializePreset fetch s presetId).presetWords q = true := by
  unfold initializePreset
  split
  · exact h
  · split
    · exact h
    · exact Dict.hasKey_set_of_hasKey _ _ _ _ h

theorem initializePreset_entityConfigs (fetch : Nat → Option (List String))
    (s : BWMState) (presetId : Nat) :
    (initializePreset fetch s presetId).entityConfigs = s.entityConfigs := by
  unfold initializePreset
  split
  · rfl
  · split
    · rfl
    · rfl

/-- `configureEntity` preserves the referenced-presets-cached invariant
when its preset fetches succeed. -/
theorem configureEntity_preserves (fetch : Nat → Option (List String)) (s : BWMState)
    (entityId : String) (profanityConfig : Option ProfanityConfig)
    (hf : ∀ p, (fetch p).isSome) (hinv : referencedPresetsCached s) :
    referencedPresetsCached (configureEntity fetch s entityId profanityConfig) := by
  cases profanityConfig with
  | none =>
    have heq : configureEntity fetch s entityId none =
        { s with entityConfigs := Dict.erase s.entityConfigs entityId } := rfl
    rw [heq]
    intro e c p hget hp
    exact hinv e c p (Dict.get?_erase_some hget) hp
  | some cfg =>
    by_cases hact : cfg.is_active = true
    · cases hpid : cfg.banned_words_preset_id with
      | none =>
        have heq : configureEntity fetch s entityId (some cfg) =
            { s with entityConfigs := Dict.set s.entityConfigs entityId ⟨none, validateAndSanitizeWords cfg.custom_words, cfg.manager_guids, true⟩ } := by
          simp [configureEntity, hact, hpid]
        rw [heq]
        intro e c p hget hp
        by_cases he : entityId = e
        · subst he
          rw [Dict.get?_set_self] at hget
          injection hget with hc
          subst hc
          simp at hp
        · rw [Dict.get?_set_ne _ _ _ _ he] at hget
          exact hinv e c p hget hp
      | some presetId =>
        have heq : configureEntity fetch s entityId (some cfg) =
            { presetWords := (initializePreset fetch s presetId).presetWords
              usedPresetIds :=
                if listHas (initializePreset fetch s presetId).usedPresetIds presetId
                then (initializePreset fetch s presetId).usedPresetIds
                else (initializePreset fetch s presetId).usedPresetIds ++ [presetId]
              entityConfigs := Dict.set (initializePreset fetch s presetId).entityConfigs entityId ⟨some presetId, validateAndSanitizeWords cfg.custom_words, cfg.manager_guids, true⟩ } := by
          simp [configureEntity, hact, hpid]
        rw [heq]
        intro e c p hget hp
        by_cases he : entityId = e
        · subst he
          rw [Dict.get?_set_self] at hget
          injection hget with hc
          subst hc
          simp at hp
          subst hp
          exact initializePreset_hasKey fetch s presetId hf
        · rw [Dict.get?_set_ne _ _ _ _ he, initializePreset_entityConfigs] at hget
          exact initializePreset_mono fetch s presetId p (hinv e c p hget hp)
    · have hact' : cfg.is_active = false := by
        cases hval : cfg.is_active
        · rfl
        · exact absurd hval hact
      have heq : configureEntity fetch s entityId (some cfg) =
          { s with entityConfigs := Dict.erase s.entityConfigs entityId } := by
        simp [configureEntity, hact']
      rw [heq]
      intro e c p hget hp
      exact hinv e c p (Dict.get?_erase_some hget) hp

/-- `cleanupEntity` preserves the referenced-presets-cached invariant. -/
theorem cleanupEntity_preserves (s : BWMState) (entityId : String)
    (hinv : referencedPresetsCached s) :
    referencedPresetsCached (cleanupEntity s entityId) := by
  cases hcfg : Dict.get? s.entityConfigs entityId with
  | none =>
    have heq : cleanupEntity s entityId = s := by
      simp [cleanupEntity, hcfg]
    rw [heq]
    exact hinv
  | some config =>
    cases hpid : config.presetId with
    | none =>
      have heq : cleanupEntity s entityId =
          { s with entityConfigs := Dict.erase s.entityConfigs entityId } := by
        simp [cleanupEntity, hcfg, hpid]
      rw [heq]
      intro e c p hget hp
      exact hinv e c p (Dict.get?_erase_some hget) hp
    | some q =>
      by_cases hstill : ((Dict.values (Dict.erase s.entityConfigs entityId)).any
          fun entityConfig => entityConfig.presetId = some q) = true
      · have heq : cleanupEntity s entityId =
            { s with entityConfigs := Dict.erase s.entityConfigs entityId } := by
          simp [cleanupEntity, hcfg, hpid, hstill]
        rw [heq]
        intro e c p hget hp
        exact hinv e c p (Dict.get?_erase_some hget) hp
      · have hstill' : ((Dict.values (Dict.erase s.entityConfigs entityId)).any
            fun entityConfig => entityConfig.presetId = some q) = false := by
          cases hval : ((Dict.values (Dict.erase s.entityConfigs entityId)).any
              fun entityConfig => entityConfig.presetId = some q)
          · rfl
          · exact absurd hval hstill
        have heq : cleanupEntity s entityId =
            { presetWords := Dict.erase s.presetWords q
              entityConfigs := Dict.erase s.entityConfigs entityId
              usedPresetIds := s.usedPresetIds.filter (· ≠ q) } := by
          simp [cleanupEntity, hcfg, hpid, hstill']
        rw [heq]
        intro e c p hget hp
        have hmem : c ∈ Dict.values (Dict.erase s.entityConfigs entityId) :=
          Dict.values_of_get? hget
        have hpq : p ≠ q := by
          intro hpq
          subst hpq
          have hany : ((Dict.values (Dict.erase s.entityConfigs entityId)).any
              fun entityConfig => entityConfig.presetId = some p) = true :=
            List.any_eq_true.mpr ⟨c, hmem, by simp [hp]⟩
          rw [hany] at hstill'
          cases hstill'
        rw [Dict.hasKey_erase_ne _ _ _ (fun hqp => hpq hqp.symm)]
        exact hinv e c p (Dict.get?_erase_some hget) hp

/-- **C5 counterexample** — reconfiguring entity `e5` from preset 1 to
preset 2 via `configureEntity` leaves preset 1 in the cache although no
configured entity references it any more: the claimed iff (and the claimed
eviction of preset A on reconfiguration) fails. -/
theorem presetCacheIff_counterexample :
    (let fetchW : Nat → Option (List String) := fun _ => some ["alpha"]
     let cfg1 : ProfanityConfig :=
       { is_active := true, banned_words_preset_id := some 1, custom_words := []
         manager_guids := [], discord_webhook_url := none, message_reply := none
         mute_duration_seconds := none }
     let cfg2 : ProfanityConfig :=
       { is_active := true, banned_words_preset_id := some 2, custom_words := []
         manager_guids := [], discord_webhook_url := none, message_reply := none
         mute_duration_seconds := none }
     let s := runBWOps [BWOp.configure "e5" (some cfg1) fetchW,
       BWOp.configure "e5" (some cfg2) fetchW]
     Dict.hasKey s.presetWords 1 = true ∧
       ((Dict.values s.entityConfigs).all fun c => c.presetId ≠ some 1) = true) := by
  decide

/-- **C5 amended** — one direction of the claimed iff does hold: after any
sequence of configure/cleanup operations whose preset fetches succeed,
every preset id referenced by a configured entity is cached; and
`cleanupEntity` does evict the cleaned entity's preset when no remaining
entity references it.  The other direction fails (see the counterexample):
`configureEntity` does not evict the preset the entity previously
referenced. -/
theorem presetCacheReferencedDirection (ops : List BWOp)
    (h : ∀ op ∈ ops, op.fetchTotal) :
    referencedPresetsCached (runBWOps ops) ∧
    (∀ (s : BWMState) (entityId : String) (config : EntityWordsConfig) (presetId : Nat),
      Dict.get? s.entityConfigs entityId = some config →
      config.presetId = some presetId →
      ((Dict.values (Dict.erase s.entityConfigs entityId)).all
        fun c => c.presetId ≠ some presetId) = true →
      Dict.hasKey (cleanupEntity s entityId).presetWords presetId = false) := by
  constructor
  · have hall : ∀ (ops₁ : List BWOp), (∀ op ∈ ops₁, op.fetchTotal) →
        ∀ s : BWMState, referencedPresetsCached s →
        referencedPresetsCached (ops₁.foldl applyBWOp s) := by
      intro ops₁
      induction ops₁ with
      | nil => intro _ s hs; exact hs
      | cons op rest ih =>
        intro hops s hs
        have hop := hops op (List.mem_cons_self op rest)
        have hrest : ∀ o ∈ rest, o.fetchTotal :=
          fun o ho => hops o (List.mem_cons_of_mem op ho)
        refine ih hrest (applyBWOp s op) ?_
        cases op with
        | configure e cfg fetch => exact configureEntity_preserves fetch s e cfg hop hs
        | cleanup e => exact cleanupEntity_preserves s e hs
    exact hall ops h BWMState.initial
      (fun e c p hg _ => by simp [BWMState.initial, Dict.get?] at hg)
  · intro s entityId config presetId hget hp hall
    have hstill : ((Dict.values (Dict.erase s.entityConfigs entityId)).any
        fun entityConfig => entityConfig.presetId = some presetId) = false := by
      cases hval : ((Dict.values (Dict.erase s.entityConfigs entityId)).any
          fun entityConfig => entityConfig.presetId = some presetId)
      · rfl
      · exfalso
        obtain ⟨c, hcmem, hcp⟩ := List.any_eq_true.mp hval
        have hne := List.all_eq_true.mp hall c hcmem
        simp at hne hcp
        exact hne hcp
    unfold cleanupEntity
    rw [hget]
    simp only [hp, hstill, Bool.false_eq_true, if_false]
    simp [Dict.hasKey, Dict.get?_erase_self]

/-- **C5 witness** — a configure-then-cleanup run satisfying the cached
direction, and a concrete eviction by `cleanupEntity`. -/
theorem presetCacheReferencedDirection_witness :
    referencedPresetsCached (runBWOps [BWOp.configure "e5w"
      (some
        { is_active := true, banned_words_preset_id := some 3, custom_words := []
          manager_guids := [], discord_webhook_url := none, message_reply := none
          mute_duration_seconds := none }) (fun _ => some ["word"]),
      BWOp.cleanup "e5w"]) ∧
    Dict.hasKey
      (cleanupEntity
        { presetWords := [(3, ["word"])]
          entityConfigs := [("e5w",
            { presetId := some 3, customWords := [], managerGuids := [], enabled := true })]
          usedPresetIds := [3] } "e5w").presetWords 3 = false := by
  have happly := presetCacheReferencedDirection
    [BWOp.configure "e5w"
      (some
        { is_active := true, banned_words_preset_id := some 3, custom_words := []
          manager_guids := [], discord_webhook_url := none, message_reply := none
          mute_duration_seconds := none }) (fun _ => some ["word"]),
      BWOp.cleanup "e5w"]
    (by
      intro op hop
      rcases List.mem_cons.mp hop with rfl | hop
      · intro p
        rfl
      · rcases List.mem_cons.mp hop with rfl | hop
        · trivial
        · exact absurd hop (List.not_mem_nil op))
  exact ⟨happly.1,
    happly.2
      { presetWords := [(3, ["word"])]
        entityConfigs := [("e5w",
          { presetId := some 3, customWords := [], managerGuids := [], enabled := true })]
        usedPresetIds := [3] }
      "e5w"
      { presetId := some 3, customWords := [], managerGuids := [], enabled := true }
      3 (by decide) rfl (by decide)⟩

/-- A 404 handler invocation never removes anything from the non-existent
set. -/
theorem handle404Error_nonExistent (s : WorkerState) (fromJid E : String)
    (hne : listHas s.nonExistentEntities E = true) :
    listHas (handle404Error s fromJid).1.nonExistentEntities E = true := by
  unfold handle404Error
  split
  · exact hne
  · split
    · exact hne
    · split
      · simpa [cleanupEntityData] using
          listHas_setAdd_of s.nonExistentEntities _ E hne
      · exact hne

/-- One worker step without an assign for `E` keeps `E` in the
non-existent set and sends no stanza addressed to `E`. -/
theorem workerStep_suppresses (s : WorkerState) (ev : WorkerEvent) (E : String)
    (hne : listHas s.nonExistentEntities E = true)
    (hnotassign : ∀ d, ev ≠ WorkerEvent.assign E d) :
    listHas (workerStep s ev).1.nonExistentEntities E = true ∧
    (∀ st ∈ (workerStep s ev).2, normalizeId st.toAttr ≠ some E) := by
  cases ev with
  | iq404 fromJid =>
    refine ⟨handle404Error_nonExistent s fromJid E hne, ?_⟩
    intro st hst
    simp [workerStep] at hst
  | assign entityId entityData =>
    have hEne : entityId ≠ E := by
      intro hEE
      subst hEE
      exact hnotassign entityData rfl
    constructor
    · cases entityData with
      | none =>
        simpa [workerStep, handleEntityAssignment] using
          listHas_setDelete_of s.nonExistentEntities entityId E
            (fun h => hEne h.symm) hne
      | some entity =>
        simpa [workerStep, handleEntityAssignment, queueStanza] using
          listHas_setDelete_of s.nonExistentEntities entityId E
            (fun h => hEne h.symm) hne
    · intro st hst
      simp [workerStep] at hst
  | unassign entityId =>
    constructor
    · simpa [workerStep, handleEntityUnassignment, cleanupEntityData] using hne
    · intro st hst
      simp [workerStep] at hst
  | enqueue stanza =>
    constructor
    · simpa [workerStep, queueStanza] using hne
    · intro st hst
      simp [workerStep] at hst
  | tick =>
    cases hq : s.outgoingStanzaQueue with
    | nil =>
      constructor
      · simpa [workerStep, processStanzaQueue, hq] using hne
      · intro st hst
        simp [workerStep, processStanzaQueue, hq] at hst
    | cons stanza rest =>
      constructor
      · have h1 : (workerStep s WorkerEvent.tick).1.nonExistentEntities =
            s.nonExistentEntities := by
          simp only [workerStep, processStanzaQueue, hq]
          split
          · split
            · split
              · rfl
              · rfl
            · rfl
          · rfl
        rw [h1]
        exact hne
      · intro st hst
        by_cases htoA : stanza.toAttr ≠ ""
        · cases hni : normalizeId stanza.toAttr with
          | none =>
            have hsent : (workerStep s WorkerEvent.tick).2 = [stanza] := by
              simp [workerStep, processStanzaQueue, hq, htoA, hni]
            rw [hsent] at hst
            simp at hst
            subst hst
            rw [hni]
            simp
          | some entityId =>
            by_cases hhas : listHas s.nonExistentEntities entityId = true
            · have hsent : (workerStep s WorkerEvent.tick).2 = [] := by
                simp [workerStep, processStanzaQueue, hq, htoA, hni, hhas]
              rw [hsent] at hst
              simp at hst
            · have hhas' : listHas s.nonExistentEntities entityId = false := by
                cases hval : listHas s.nonExistentEntities entityId
                · rfl
                · exact absurd hval hhas
              have hsent : (workerStep s WorkerEvent.tick).2 = [stanza] := by
                simp [workerStep, processStanzaQueue, hq, htoA, hni, hhas']
              rw [hsent] at hst
              simp at hst
              subst hst
              rw [hni]
              intro hsome
              injection hsome with hEid
              subst hEid
              exact hhas hne
        · have htoA' : stanza.toAttr = "" := by
            by_contra hc
            exact htoA hc
          have hsent : (workerStep s WorkerEvent.tick).2 = [stanza] := by
            simp [workerStep, processStanzaQueue, hq, htoA']
          rw [hsent] at hst
          simp at hst
          subst hst
          rw [htoA']
          simp [normalizeId]

/-- Running any event sequence with no assign for `E` from a state where
`E` is flagged non-existent never sends a stanza addressed to `E`. -/
theorem workerRun_suppresses (E : String) (events : List WorkerEvent)
    (hnoassign : ∀ d, WorkerEvent.assign E d ∉ events) :
    ∀ s : WorkerState, listHas s.nonExistentEntities E = true →
      listHas (workerRun s events).1.nonExistentEntities E = true ∧
      (∀ st ∈ (workerRun s events).2, normalizeId st.toAttr ≠ some E) := by
  induction events with
  | nil =>
    intro s hne
    refine ⟨hne, ?_⟩
    intro st hst
    simp [workerRun] at hst
  | cons ev evs ih =>
    intro s hne
    have hnot : ∀ d, ev ≠ WorkerEvent.assign E d := by
      intro d hev
      exact hnoassign d (hev ▸ List.mem_cons_self ev evs)
    have hstep := workerStep_suppresses s ev E hne hnot
    have hrest : ∀ d, WorkerEvent.assign E d ∉ evs :=
      fun d hd => hnoassign d (List.mem_cons_of_mem ev hd)
    have ihall := ih hrest (workerStep s ev).1 hstep.1
    have hrun1 : (workerRun s (ev :: evs)).1 = (workerRun (workerStep s ev).1 evs).1 := by
      simp [workerRun]
    have hrun2 : (workerRun s (ev :: evs)).2 =
        (workerStep s ev).2 ++ (workerRun (workerStep s ev).1 evs).2 := by
      simp [workerRun]
    refine ⟨by rw [hrun1]; exact ihall.1, ?_⟩
    intro st hst
    rw [hrun2] at hst
    rcases List.mem_append.mp hst with hst | hst
    · exact hstep.2 st hst
    · exact ihall.2 st hst

/-- **C6** — an upstream IQ error with code 404 from a supergroup/muclight
JID that resolves to entity `E` of the worker's map removes `E` from the
entity map, adds it to the non-existent set, posts the status-inactive
notification, and from then on — through any sequence of worker events
containing no assign for `E` — no stanza addressed to `E` is sent from the
outgoing queue; an assign notification for `E` removes it from the
non-existent set. -/
theorem entity404Suppression (s : WorkerState) (fromJid E : String)
    (hdom : (containsSubstring fromJid "@supergroups" ||
      containsSubstring fromJid "@muclight") = true)
    (hid : normalizeId fromJid = some E)
    (hent : Dict.hasKey s.entities E = true) :
    Dict.hasKey (handle404Error s fromJid).1.entities E = false ∧
    listHas (handle404Error s fromJid).1.nonExistentEntities E = true ∧
    (handle404Error s fromJid).2 = some E ∧
    (∀ events : List WorkerEvent,
      (∀ d, WorkerEvent.assign E d ∉ events) →
      ∀ st ∈ (workerRun (handle404Error s fromJid).1 events).2,
        normalizeId st.toAttr ≠ some E) ∧
    (∀ (s₂ : WorkerState) (entityData : Option EntityConfig),
      listHas (handleEntityAssignment s₂ E entityData).nonExistentEntities E = false) := by
  have hjid : ¬(fromJid = "") := by
    intro h0
    rw [h0] at hid
    simp [normalizeId] at hid
  have hcond : (decide (fromJid = "") ||
      (!containsSubstring fromJid "@supergroups" &&
        !containsSubstring fromJid "@muclight")) = false := by
    cases ha : containsSubstring fromJid "@supergroups" with
    | true => simp [hjid, ha]
    | false =>
      cases hb : containsSubstring fromJid "@muclight" with
      | true => simp [hjid, ha, hb]
      | false =>
        rw [ha, hb] at hdom
        simp at hdom
  have heq : handle404Error s fromJid = (cleanupEntityData s E true true, some E) := by
    unfold handle404Error
    simp only [hcond, Bool.false_eq_true, if_false, hid, hent, if_true]
  refine ⟨?_, ?_, ?_, ?_, ?_⟩
  · rw [heq]
    simp [cleanupEntityData, Dict.hasKey, Dict.get?_erase_self]
  · rw [heq]
    simp [cleanupEntityData, listHas_setAdd_self]
  · rw [heq]
  · intro events hnoassign
    refine (workerRun_suppresses E events hnoassign (handle404Error s fromJid).1 ?_).2
    rw [heq]
    simp [cleanupEntityData, listHas_setAdd_self]
  · intro s₂ entityData
    cases entityData with
    | none => simp [handleEntityAssignment, listHas_setDelete_self]
    | some entity => simp [handleEntityAssignment, queueStanza, listHas_setDelete_self]

/-- **C6 witness** — a concrete 404 from the MUC-Light JID of entity
`1a2b3c4d-...`: the entity is dropped, flagged, reported inactive, and a
queued stanza addressed to it is not sent on the next tick. -/
theorem entity404Suppression_witness :
    (let E := "1a2b3c4d-1111-2222-3333-444455556666"
     let fromJid := "club-1a2b3c4d-1111-2222-3333-444455556666-general@muclight.chat.faceit.com"
     let s : WorkerState :=
       { entities := [(E,
           { guid := E, type := "community", parent_guid := none, commands := []
             timers := [], timer_counter_max := 30, read_only := false
             welcome_message := none })]
         counters := CounterState.initial, supergroupSubscriptions := []
         recentlyUnassignedEntities := [], nonExistentEntities := []
         outgoingStanzaQueue := [] }
     Dict.hasKey (handle404Error s fromJid).1.entities E = false ∧
       listHas (handle404Error s fromJid).1.nonExistentEntities E = true ∧
       (handle404Error s fromJid).2 = some E ∧
       (∀ st ∈ (workerRun (handle404Error s fromJid).1
           [WorkerEvent.enqueue { toAttr := fromJid, payload := "late" },
             WorkerEvent.tick]).2,
         normalizeId st.toAttr ≠ some E)) := by
  have happly := entity404Suppression
    { entities := [("1a2b3c4d-1111-2222-3333-444455556666",
        { guid := "1a2b3c4d-1111-2222-3333-444455556666", type := "community"
          parent_guid := none, commands := [], timers := [], timer_counter_max := 30
          read_only := false, welcome_message := none })]
      counters := CounterState.initial, supergroupSubscriptions := []
      recentlyUnassignedEntities := [], nonExistentEntities := []
      outgoingStanzaQueue := [] }
    "club-1a2b3c4d-1111-2222-3333-444455556666-general@muclight.chat.faceit.com"
    "1a2b3c4d-1111-2222-3333-444455556666"
    (by decide) (by decide) (by decide)
  exact ⟨happly.1, happly.2.1, happly.2.2.1,
    happly.2.2.2.1
      [WorkerEvent.enqueue
        { toAttr := "club-1a2b3c4d-1111-2222-3333-444455556666-general@muclight.chat.faceit.com"
          payload := "late" },
        WorkerEvent.tick]
      (by
        intro d hd
        simp at hd)⟩

end Chatbot
